import Mathlib

/-!
Verification of the TradePrivate client-side cryptographic engine.

This file gives a shallow embedding, in Lean 4, of the JavaScript modules
under `src/lib` of the repository (field arithmetic, commitment generation,
nullifier generation, HD-wallet mnemonic validation, order encryption, and
the commit-reveal / order-submission orchestration), together with theorems
settling the specification claims about them.

Conventions of the embedding:
* JavaScript `BigInt` values are `Int` (or `Nat` where the source guarantees
  non-negativity); `%` on `BigInt` is truncated remainder, `Int.tmod`.
* `Uint8Array`s are `List Nat` with entries below 256.
* Fallible code returns `Except JsError α`, where `JsError` records the
  JavaScript error class name and message.
* Loops are modelled by structurally recursive functions with a fuel
  parameter chosen large enough to cover every reachable iteration count.
* Platform primitives that are not code of this repository (WebCrypto
  AES-GCM, keccak256 from `js-sha3`) are taken as function parameters; the
  repository's own byte plumbing around them is embedded faithfully.
-/

set_option maxRecDepth 20000

namespace TradePrivate

/-- BN254 scalar field modulus, `ZK_CONFIG.FIELD_SIZE` /
`CONSTANTS.FIELD_SIZE` in `src/lib/config`. -/
def FIELD_SIZE : Nat :=
  21888242871839275222246405745257275088548364400416034343698204186575808495617

/-- JavaScript error value: the `.name` of the error class and its message. -/
structure JsError where
  name : String
  message : String
deriving Repr, DecidableEq

/-- Constructor of `FieldElement` (fieldElement.js lines 8-20): reduce the
input `BigInt` by the JavaScript `%` (truncated remainder, `Int.tmod`) and
add the modulus once if the result is negative. -/
def mkFieldElement (value : Int) : Nat :=
  (let r := value.tmod FIELD_SIZE
   if r < 0 then r + FIELD_SIZE else r).toNat

/-- FieldElement.add: `(this.value + other.value) % FIELD_SIZE`, passed back
through the constructor. -/
def feAdd (a b : Nat) : Nat :=
  mkFieldElement (((a + b) % FIELD_SIZE : Nat) : Int)

/-- FieldElement.sub: subtract, add the modulus once if negative, pass the
result through the constructor. -/
def feSub (a b : Nat) : Nat :=
  mkFieldElement (let r := (a : Int) - (b : Int)
                  if r < 0 then r + FIELD_SIZE else r)

/-- FieldElement.mul: `(this.value * other.value) % FIELD_SIZE`, through the
constructor. -/
def feMul (a b : Nat) : Nat :=
  mkFieldElement (((a * b) % FIELD_SIZE : Nat) : Int)

/-- Body of the `while (exp > 0n)` square-and-multiply loop of
`FieldElement.pow` (fieldElement.js lines 88-102), with explicit fuel.  The
state is `(result, base, exp)`; each iteration multiplies `result` by `base`
when the low bit of `exp` is set, squares `base`, and halves `exp`, all
modulo `m`. -/
def powLoop (m : Nat) : Nat → Nat → Nat → Nat → Nat
  | 0, result, _, _ => result
  | fuel + 1, result, base, e =>
    if e = 0 then result
    else powLoop m fuel (if e % 2 = 1 then result * base % m else result)
      (base * base % m) (e / 2)

/-- FieldElement.pow: run the square-and-multiply loop (any exponent the
source can produce is below `2^256`, which fuel 256 covers) and pass the
result through the constructor. -/
def fePow (a e : Nat) : Nat :=
  mkFieldElement ((powLoop FIELD_SIZE 256 1 a e : Nat) : Int)

/-- FieldElement.inv: Fermat little-theorem inversion, `pow(FIELD_SIZE - 2)`.
The source has no zero check on this path. -/
def feInv (a : Nat) : Nat :=
  fePow a (FIELD_SIZE - 2)

/-- Helper `toFieldElement` (fieldElement.js lines 145-174): reduce a
`BigInt` into the field, with the same two-step reduction as the
constructor. -/
def toFieldElement (value : Int) : Nat :=
  mkFieldElement value

/-- Extended Euclidean algorithm `extendedGCD` (fieldElement.js lines
274-284), specialised to the non-negative arguments `inverseFieldElement`
feeds it. -/
def extendedGCD : Nat → Nat → Nat × Int × Int
  | 0, b => (b, 0, 1)
  | a + 1, b =>
    let r := extendedGCD (b % (a + 1)) (a + 1)
    (r.1, r.2.2 - ((b : Int) / ((a : Int) + 1)) * r.2.1, r.2.1)
decreasing_by exact Nat.mod_lt _ (Nat.succ_pos a)

/-- The `modInverse` helper (fieldElement.js lines 272-293): run the extended
Euclid on `a % m` and `m`; fail when the gcd is not 1, otherwise normalise
the Bezout coefficient into `[0, m)`. -/
def modInverse (a m : Nat) : Except JsError Nat :=
  let r := extendedGCD (a % m) m
  if r.1 ≠ 1 then
    .error ⟨"Error", "Modular inverse does not exist"⟩
  else
    .ok ((r.2.1.tmod m + m).tmod m).toNat

/-- The exported `inverseFieldElement` (fieldElement.js lines 239-247):
reduce the input, throw on the zero element, otherwise delegate to
`modInverse`. -/
def inverseFieldElement (a : Int) : Except JsError Nat :=
  let element := toFieldElement a
  if element = 0 then
    .error ⟨"Error", "Cannot compute inverse of zero"⟩
  else
    modInverse element FIELD_SIZE

theorem neg_ofNat_tmod (m n : Nat) :
    (-(m : Int)).tmod n = -((m : Int).tmod n) := by
  cases m with
  | zero => simp [Int.zero_tmod]
  | succ k => rfl

theorem tmod_field_bounds (v : Int) :
    -(FIELD_SIZE : Int) < v.tmod FIELD_SIZE ∧ v.tmod FIELD_SIZE < FIELD_SIZE := by
  have hP : (0 : Int) < (FIELD_SIZE : Int) := by
    have : 0 < FIELD_SIZE := by decide
    exact_mod_cast this
  refine ⟨?_, Int.tmod_lt_of_pos v hP⟩
  rcases le_or_lt 0 v with hv | hv
  · have := Int.tmod_nonneg (FIELD_SIZE : Int) hv
    omega
  · have hv' : v = -(v.natAbs : Int) := by omega
    rw [hv', neg_ofNat_tmod]
    have h1 : ((v.natAbs : Int)).tmod FIELD_SIZE < FIELD_SIZE :=
      Int.tmod_lt_of_pos _ hP
    omega

/-- The FieldElement constructor always lands in `[0, FIELD_SIZE)`: the core
of claim C9. -/
theorem mkFieldElement_lt (value : Int) : mkFieldElement value < FIELD_SIZE := by
  obtain ⟨h1, h2⟩ := tmod_field_bounds value
  show (if value.tmod FIELD_SIZE < 0 then value.tmod FIELD_SIZE + FIELD_SIZE
        else value.tmod FIELD_SIZE).toNat < FIELD_SIZE
  split <;> omega

theorem powLoop_lt (m : Nat) :
    ∀ fuel r b e, r < m → powLoop m fuel r b e < m := by
  intro fuel
  induction fuel with
  | zero => intro r b e hr; simpa [powLoop] using hr
  | succ k ih =>
    intro r b e hr
    rw [powLoop]
    split
    · exact hr
    · apply ih
      split
      · exact Nat.mod_lt _ (by omega)
      · exact hr

theorem powLoop_correct (m : Nat) :
    ∀ fuel e r b, e < 2 ^ fuel →
      powLoop m fuel (r % m) b e = r * b ^ e % m := by
  intro fuel
  induction fuel with
  | zero =>
    intro e r b he
    interval_cases e
    simp [powLoop]
  | succ k ih =>
    intro e r b he
    rw [powLoop]
    split
    · rename_i he0; subst he0; simp
    · rename_i he0
      have he2 : e / 2 < 2 ^ k := by
        have : (2 : Nat) ^ (k + 1) = 2 * 2 ^ k := by ring
        omega
      have hpm : (b * b % m) ^ (e / 2) % m = (b * b) ^ (e / 2) % m :=
        (Nat.pow_mod (b * b) (e / 2) m).symm
      split
      · rename_i hodd
        have heq : e = 2 * (e / 2) + 1 := by omega
        have h1 : r % m * b % m = r * b % m := Nat.mod_mul_mod
        rw [h1, ih (e / 2) (r * b) (b * b % m) he2,
          Nat.mul_mod, hpm, ← Nat.mul_mod]
        conv_rhs => rw [heq]
        congr 1
        ring
      · rename_i heven
        have heq : e = 2 * (e / 2) := by omega
        rw [ih (e / 2) r (b * b % m) he2,
          Nat.mul_mod, hpm, ← Nat.mul_mod]
        conv_rhs => rw [heq]
        congr 1
        ring

/-- Checking a nullifier against the ledger (nullifierGenerator.js lines
64-71): the outcome of the `contract.usedNullifiers(nullifier)` call is the
argument; a thrown error is caught, logged, and `false` is returned. -/
def isNullifierUsed (query : Except JsError Bool) : Bool :=
  match query with
  | .ok used => used
  | .error _ => false

/-- C9: the FieldElement constructor accepts any integer (hex strings,
decimal strings, byte arrays and BigInts are all converted to a BigInt
before construction, negatives included) and always produces a value in
`[0, FIELD_SIZE)`; `add`, `sub`, `mul` and `pow` each build their result
with the constructor, so they are also reduced into `[0, FIELD_SIZE)`, and
being pure they leave their operands unchanged. -/
theorem claim_C9_fieldElement_range (v : Int) (a b e : Nat) :
    mkFieldElement v < FIELD_SIZE ∧ feAdd a b < FIELD_SIZE ∧
    feSub a b < FIELD_SIZE ∧ feMul a b < FIELD_SIZE ∧
    fePow a e < FIELD_SIZE :=
  ⟨mkFieldElement_lt v, mkFieldElement_lt _, mkFieldElement_lt _,
   mkFieldElement_lt _, mkFieldElement_lt _⟩

/-- C10: `NullifierGenerator.isNullifierUsed` returns the ledger's answer
when the query succeeds, returns `false` when the query throws (never
propagating the error), and consequently a failed query is indistinguishable
from a confirmed-unused nullifier. -/
theorem claim_C10_isNullifierUsed_swallows_errors (e : JsError) (b : Bool) :
    isNullifierUsed (.error e) = false ∧ isNullifierUsed (.ok b) = b ∧
    isNullifierUsed (.error e) = isNullifierUsed (.ok false) :=
  ⟨rfl, rfl, rfl⟩

/-! Hex-string and byte plumbing shared by `commitmentGenerator.js`,
`nullifierGenerator.js` and `fieldElement.js`. JavaScript renders a BigInt
with `toString(16)` (minimal big-endian hex digits), pads with
`padStart(len, '0')`, and parses hex back into bytes two digits at a time.
Digits and bytes are `Nat`s; a hex string is its list of digit values. -/

/-- Big-endian digit list of fixed width: `beDigits base k v` is the `k`
least-significant base-`base` digits of `v`, most significant first. -/
def beDigits (base : Nat) : Nat → Nat → List Nat
  | 0, _ => []
  | k + 1, v => (v / base ^ k % base) :: beDigits base k v

/-- Minimal big-endian digit expansion, the model of JavaScript
`BigInt.toString(16)` (fuel covers all values below `16 ^ fuel`). -/
def hexDigitsAux : Nat → Nat → List Nat
  | 0, _ => []
  | fuel + 1, v => if v < 16 then [v] else hexDigitsAux fuel (v / 16) ++ [v % 16]

/-- Model of `v.toString(16)` for the 256-bit values this codebase handles. -/
def hexDigits (v : Nat) : List Nat :=
  hexDigitsAux 64 v

/-- Model of `String.prototype.padStart(n, '0')` on digit lists. -/
def padStart (n pad : Nat) (l : List Nat) : List Nat :=
  List.replicate (n - l.length) pad ++ l

/-- Hex-pair parsing loop (`for (i..; i += 2) bytes[i / 2] =
parseInt(hex.slice(i, i + 2), 16)`), used by `generateCommitHash` and
`hexToBytes`; all call sites pass even-length strings. -/
def hexPairsToBytes : List Nat → List Nat
  | d1 :: d2 :: rest => (d1 * 16 + d2) :: hexPairsToBytes rest
  | _ => []

/-- Lowercase hex character of a digit, as produced by `toString(16)` and
`js-sha3`. -/
def hexCharOfDigit (d : Nat) : Char :=
  if d < 10 then Char.ofNat (48 + d) else Char.ofNat (87 + d)

/-- Render a byte list as a lowercase hex string. -/
def hexStringOfBytes (bs : List Nat) : String :=
  ⟨bs.flatMap (fun b => [hexCharOfDigit (b / 16), hexCharOfDigit (b % 16)])⟩

/-- Hex digit list of a byte list (two digits per byte, big-endian). -/
def hexDigitsOfBytes (bs : List Nat) : List Nat :=
  bs.flatMap (fun b => [b / 16, b % 16])

theorem beDigits_peel (base : Nat) :
    ∀ k v, beDigits base (k + 1) v = beDigits base k (v / base) ++ [v % base] := by
  intro k
  induction k with
  | zero => intro v; simp [beDigits]
  | succ j ih =>
    intro v
    have hd : v / base / base ^ j = v / base ^ (j + 1) := by
      rw [Nat.div_div_eq_div_mul, ← pow_succ']
    calc beDigits base (j + 1 + 1) v
        = (v / base ^ (j + 1) % base) :: beDigits base (j + 1) v := rfl
      _ = (v / base ^ (j + 1) % base) ::
            (beDigits base j (v / base) ++ [v % base]) := by rw [ih v]
      _ = ((v / base / base ^ j % base) :: beDigits base j (v / base)) ++
            [v % base] := by rw [hd]; rfl
      _ = beDigits base (j + 1) (v / base) ++ [v % base] := rfl

theorem beDigits_length (base : Nat) : ∀ k v, (beDigits base k v).length = k := by
  intro k
  induction k with
  | zero => intro v; rfl
  | succ j ih => intro v; simp [beDigits, ih]

theorem beDigits_high_zeros (base : Nat) (hb : 0 < base) :
    ∀ j k v, v < base ^ k →
      beDigits base (j + k) v = List.replicate j 0 ++ beDigits base k v := by
  intro j
  induction j with
  | zero => intro k v _; simp
  | succ i ih =>
    intro k v hv
    have hle : base ^ k ≤ base ^ (i + k) :=
      Nat.pow_le_pow_right hb (by omega)
    have hz : v / base ^ (i + k) = 0 := Nat.div_eq_of_lt (by omega)
    have he : i + 1 + k = (i + k) + 1 := by omega
    rw [he, beDigits, hz, ih k v hv]
    simp [List.replicate_succ]

theorem hexDigitsAux_eq_beDigits :
    ∀ n fuel v, 16 ^ n ≤ v → v < 16 ^ (n + 1) → n + 1 ≤ fuel →
      hexDigitsAux fuel v = beDigits 16 (n + 1) v := by
  intro n
  induction n with
  | zero =>
    intro fuel v h1 h2 hf
    obtain ⟨f, rfl⟩ : ∃ f, fuel = f + 1 := ⟨fuel - 1, by omega⟩
    rw [hexDigitsAux, if_pos (by simpa using h2)]
    have : v % 16 = v := Nat.mod_eq_of_lt (by simpa using h2)
    simp [beDigits, this]
  | succ m ih =>
    intro fuel v h1 h2 hf
    obtain ⟨f, rfl⟩ : ∃ f, fuel = f + 1 := ⟨fuel - 1, by omega⟩
    have h16 : (16 : Nat) ≤ 16 ^ (m + 1) :=
      Nat.le_self_pow (by omega) 16
    rw [hexDigitsAux, if_neg (by omega)]
    have hlo : 16 ^ m ≤ v / 16 := by
      rw [Nat.le_div_iff_mul_le (by omega)]
      calc 16 ^ m * 16 = 16 ^ (m + 1) := by rw [pow_succ]
        _ ≤ v := h1
    have hhi : v / 16 < 16 ^ (m + 1) := by
      rw [Nat.div_lt_iff_lt_mul (by omega)]
      calc v < 16 ^ (m + 1 + 1) := h2
        _ = 16 ^ (m + 1) * 16 := by rw [pow_succ]
    rw [ih f (v / 16) hlo hhi (by omega), ← beDigits_peel]

theorem padStart_hexDigits (v : Nat) (hv : v < 16 ^ 64) :
    padStart 64 0 (hexDigits v) = beDigits 16 64 v := by
  rcases Nat.eq_zero_or_pos v with rfl | hpos
  · decide
  · set n := Nat.log 16 v with hn
    have h1 : 16 ^ n ≤ v := Nat.pow_log_le_self 16 (by omega)
    have h2 : v < 16 ^ (n + 1) := Nat.lt_pow_succ_log_self (by omega) v
    have hlt : n + 1 ≤ 64 := by
      by_contra hcon
      have : 16 ^ 64 ≤ 16 ^ n := Nat.pow_le_pow_right (by omega) (by omega)
      omega
    rw [show hexDigits v = hexDigitsAux 64 v from rfl,
      hexDigitsAux_eq_beDigits n 64 v h1 h2 hlt]
    show List.replicate (64 - (beDigits 16 (n + 1) v).length) 0 ++ _ = _
    rw [beDigits_length]
    have : (64 : Nat) = (64 - (n + 1)) + (n + 1) := by omega
    conv_rhs => rw [this]
    rw [beDigits_high_zeros 16 (by omega) (64 - (n + 1)) (n + 1) v h2]

theorem hexPairs_beDigits : ∀ k v,
    hexPairsToBytes (beDigits 16 (2 * k) v) = beDigits 256 k v := by
  intro k
  induction k with
  | zero => intro v; rfl
  | succ j ih =>
    intro v
    have e1 : 2 * (j + 1) = (2 * j + 1) + 1 := by omega
    rw [e1]
    rw [beDigits, beDigits]
    rw [hexPairsToBytes, ih v]
    have hx : 16 ^ (2 * j + 1) = 16 ^ (2 * j) * 16 := pow_succ 16 (2 * j)
    have hdd : v / 16 ^ (2 * j + 1) = v / 16 ^ (2 * j) / 16 := by
      rw [hx, ← Nat.div_div_eq_div_mul]
    have h256 : (256 : Nat) ^ j = 16 ^ (2 * j) := by
      rw [show (256 : Nat) = 16 ^ 2 from rfl, ← pow_mul]
    rw [beDigits]
    have hmm := @Nat.mod_mul 16 16 (v / 16 ^ (2 * j))
    have : v / 16 ^ (2 * j + 1) % 16 * 16 + v / 16 ^ (2 * j) % 16 =
        v / 256 ^ j % 256 := by
      rw [hdd, h256]
      omega
    rw [this]

theorem hexPairs_append : ∀ (l1 l2 : List Nat), l1.length % 2 = 0 →
    hexPairsToBytes (l1 ++ l2) = hexPairsToBytes l1 ++ hexPairsToBytes l2
  | [], _, _ => rfl
  | [_], _, h => by simp at h
  | d1 :: d2 :: rest, l2, h => by
    have ih := hexPairs_append rest l2
      (by simp only [List.length_cons] at h; omega)
    simp only [List.cons_append, hexPairsToBytes]
    rw [show rest.append l2 = rest ++ l2 from rfl, ih]

theorem hexPairs_ofBytes : ∀ bs : List Nat,
    hexPairsToBytes (hexDigitsOfBytes bs) = bs := by
  intro bs
  induction bs with
  | nil => rfl
  | cons b rest ih =>
    show hexPairsToBytes (b / 16 :: b % 16 :: hexDigitsOfBytes rest) = b :: rest
    rw [hexPairsToBytes, ih]
    congr 1
    omega

/-- CommitmentGenerator.generateCommitHash (commitmentGenerator.js lines
49-70): render the commitment (a FieldElement, via `toHex().slice(2)`) and
the nonce (a BigInt, via `toString(16).padStart(64, '0')`) as 64 hex digits
each, strip `0x` from the address and pad it to 40 digits, concatenate,
parse the hex string into bytes, and keccak256 the bytes.  `keccak256` comes
from the external `js-sha3` package and is a function parameter; the
address is passed as its digit list after the `0x` strip of line 57. -/
def generateCommitHash (keccak : List Nat → List Nat)
    (commitment nonce : Nat) (addressHex : List Nat) : String :=
  let commitmentHex := padStart 64 0 (hexDigits commitment)
  let nonceHex := padStart 64 0 (hexDigits nonce)
  let packedHex := commitmentHex ++ nonceHex ++ padStart 40 0 addressHex
  "0x" ++ hexStringOfBytes (keccak (hexPairsToBytes packedHex))

theorem hexDigitsOfBytes_length (bs : List Nat) :
    (hexDigitsOfBytes bs).length = 2 * bs.length := by
  induction bs with
  | nil => rfl
  | cons b rest ih =>
    show (b / 16 :: b % 16 :: hexDigitsOfBytes rest).length = _
    simp [ih]
    omega

/-- C1: for every commitment in the field, nonce below `2^256` and 20-byte
address, `generateCommitHash` feeds keccak256 exactly the 84-byte packed
concatenation commitment (32 bytes big-endian) ∥ nonce (32 bytes
big-endian) ∥ address (20 bytes) — the byte string of Solidity's
`abi.encodePacked(commitment, nonce, address)` — and returns the digest as
a 0x-prefixed hex string. -/
theorem claim_C1_commitHash_packing (keccak : List Nat → List Nat)
    (c n : Nat) (addrBytes : List Nat)
    (hc : c < FIELD_SIZE) (hn : n < 2 ^ 256) (hlen : addrBytes.length = 20) :
    generateCommitHash keccak c n (hexDigitsOfBytes addrBytes) =
      "0x" ++ hexStringOfBytes
        (keccak (beDigits 256 32 c ++ beDigits 256 32 n ++ addrBytes)) := by
  have hc' : c < 16 ^ 64 := by
    have : FIELD_SIZE < 16 ^ 64 := by decide
    omega
  have hn' : n < 16 ^ 64 := by
    have : (2 : Nat) ^ 256 = 16 ^ 64 := by decide
    omega
  have hpadA : padStart 40 0 (hexDigitsOfBytes addrBytes) =
      hexDigitsOfBytes addrBytes := by
    unfold padStart
    rw [hexDigitsOfBytes_length, hlen]
    rfl
  unfold generateCommitHash
  rw [padStart_hexDigits c hc', padStart_hexDigits n hn', hpadA]
  dsimp only
  have hlenC : (beDigits 16 64 c).length = 64 := beDigits_length 16 64 c
  have hlenN : (beDigits 16 64 n).length = 64 := beDigits_length 16 64 n
  rw [hexPairs_append (beDigits 16 64 c ++ beDigits 16 64 n)
    (hexDigitsOfBytes addrBytes) (by simp [hlenC, hlenN]),
    hexPairs_append (beDigits 16 64 c) (beDigits 16 64 n) (by simp [hlenC])]
  have h1 : hexPairsToBytes (beDigits 16 64 c) = beDigits 256 32 c :=
    hexPairs_beDigits 32 c
  have h2 : hexPairsToBytes (beDigits 16 64 n) = beDigits 256 32 n :=
    hexPairs_beDigits 32 n
  rw [h1, h2, hexPairs_ofBytes]

/-- Witness for C1: the packing theorem applied at commitment 1, nonce 2
and the zero address, with a trivial stand-in for the external keccak256
function. -/
theorem claim_C1_commitHash_packing_witness :
    (1 : Nat) < FIELD_SIZE ∧ (2 : Nat) < 2 ^ 256 ∧
    (List.replicate 20 0).length = 20 ∧
    generateCommitHash (fun _ => []) 1 2
        (hexDigitsOfBytes (List.replicate 20 0)) =
      "0x" ++ hexStringOfBytes ((fun _ => [])
        (beDigits 256 32 1 ++ beDigits 256 32 2 ++ List.replicate 20 0)) :=
  ⟨by decide, by decide, by decide,
   claim_C1_commitHash_packing (fun _ => []) 1 2 (List.replicate 20 0)
     (by decide) (by decide) (by decide)⟩

/-! Orchestration layer: `orderManager.js`, `accountManager.js` and the
retry helper of `utils/errors.js`. -/

/-- Big-endian value of a digit list (JavaScript parses the joined hex
string of the random bytes back into one BigInt). -/
def valBase (base : Nat) (l : List Nat) : Nat :=
  l.foldl (fun acc d => acc * base + d) 0

/-- FieldElement.toHex (fieldElement.js lines 109-111):
`0x + value.toString(16).padStart(64, 0)`. -/
def feToHex (v : Nat) : String :=
  "0x" ++ ⟨(padStart 64 0 (hexDigits v)).map hexCharOfDigit⟩

/-- Order fields as formatted by `formatOrderData` and consumed by
`serializeOrderData`; string fields hold decimal or 0x-hex renderings. -/
structure OrderData where
  market : String
  size : String
  price : String
  orderType : Nat
  isLong : Bool
  leverage : Nat
  tpPrice : String
  slPrice : String
deriving Repr, DecidableEq

/-- CommitmentGenerator.serializeOrderData (commitmentGenerator.js lines
75-88): the eight `||`-defaulted parts joined with the pipe character
(JavaScript treats the empty string and the number 0 as falsy). -/
def serializeOrderData (od : OrderData) : String :=
  String.intercalate "|"
    [if od.market = "" then "0x0" else od.market,
     if od.size = "" then "0" else od.size,
     if od.price = "" then "0" else od.price,
     toString od.orderType,
     if od.isLong then "1" else "0",
     toString (if od.leverage = 0 then 1 else od.leverage),
     if od.tpPrice = "" then "0" else od.tpPrice,
     if od.slPrice = "" then "0" else od.slPrice]

/-- TextEncoder().encode for the ASCII strings this code serializes: one
byte per character, the character code. -/
def textEncode (s : String) : List Nat :=
  s.data.map Char.toNat

/-- CommitmentGenerator.hashOrderData (commitmentGenerator.js lines
93-103): fold `hash = hash * 31 + byte` over the encoded string in the
field, starting from 1. -/
def hashOrderData (data : String) : Nat :=
  (textEncode data).foldl
    (fun hash b => feAdd (feMul hash (mkFieldElement 31)) (mkFieldElement b)) 1

/-- CommitmentGenerator.generateOrderCommitment (commitmentGenerator.js
lines 32-43): field addition of the serialized-order hash and the nonce. -/
def generateOrderCommitment (od : OrderData) (nonce : Nat) : Nat :=
  feAdd (hashOrderData (serializeOrderData od)) (mkFieldElement nonce)

/-- NullifierGenerator.generateOrderNullifier (nullifierGenerator.js lines
13-24): `privateKey + 2 * orderCommitment + 3 * nonce` in the field,
rendered by `toHex`. -/
def generateOrderNullifier (privateKey commitment nonce : Nat) : String :=
  feToHex (feAdd
    (feAdd (mkFieldElement privateKey)
      (feMul (mkFieldElement commitment) (mkFieldElement 2)))
    (feMul (mkFieldElement nonce) (mkFieldElement 3)))

/-- PrivateOrderManager.generateOrderNonce (orderManager.js lines 205-211):
draw 32 random bytes, mask the top byte with `0x0F`, and parse the joined
hex rendering back into a BigInt (its big-endian value). -/
def generateOrderNonce (randomBytes : List Nat) : Nat :=
  match randomBytes with
  | [] => 0
  | b0 :: rest => valBase 256 ((b0 &&& 15) :: rest)

/-- JavaScript `String.prototype.includes`: the needle occurs as a
contiguous substring. -/
def containsSub (needle : List Char) : List Char → Bool
  | [] => needle.isEmpty
  | c :: t => needle.isPrefixOf (c :: t) || containsSub needle t

/-- String.includes on `String`s. -/
def jsIncludes (s sub : String) : Bool :=
  containsSub sub.data s.data

/-- ErrorHandler.isRetryableError (utils/errors.js lines 106-151): the
keyword cascade over the error message, defaulting to retryable. -/
def isRetryableError (e : JsError) : Bool :=
  let m := e.message
  if jsIncludes m "network" || jsIncludes m "timeout" ||
     jsIncludes m "ETIMEDOUT" || jsIncludes m "ECONNREFUSED" then true
  else if jsIncludes m "nonce" || jsIncludes m "replacement fee too low" then true
  else if jsIncludes m "rate limit" || jsIncludes m "429" then true
  else if jsIncludes m "user rejected" || jsIncludes m "User denied" then false
  else if jsIncludes m "insufficient funds" ||
     jsIncludes m "InsufficientBalance" then false
  else if jsIncludes m "revert" || jsIncludes m "NullifierAlreadyUsed" ||
     jsIncludes m "AccountDoesNotExist" then false
  else if jsIncludes m "InvalidProof" || jsIncludes m "proof" then false
  else true

/-- ErrorHandler.withRetry (utils/errors.js lines 72-104): invoke the
closure again on each attempt (`fn i` is the outcome of invocation `i`);
`remaining` counts the retries left (`maxRetries - i`), and the error of
the last attempt, or of the first non-retryable failure, is rethrown. -/
def withRetry (fn : Nat → Except JsError α) (shouldRetry : JsError → Bool) :
    Nat → Nat → Except JsError α
  | i, 0 => fn i
  | i, rem + 1 =>
    match fn i with
    | .ok a => .ok a
    | .error e => if shouldRetry e then withRetry fn shouldRetry (i + 1) rem
                  else .error e

/-- One invocation of the closure inside
`PrivateOrderManager.submitPrivateOrder` (orderManager.js lines 31-118):
every invocation calls `generateOrderNonce()` afresh (drawing the next
random bytes, `rng i`), rebuilds the order commitment and nullifier from
that new nonce, consults the ledger's used-nullifier set, and proceeds to
encryption/proof/submission, whose combined outcome for attempt `i` is the
external parameter `submissionOutcome i` (block number on success).  On
success the nullifier actually submitted is returned. -/
def submitPrivateOrderAttempt (privateKey : Nat) (orderData : OrderData)
    (rng : Nat → List Nat) (nullifierUsed : String → Bool)
    (submissionOutcome : Nat → Except JsError Nat) (i : Nat) :
    Except JsError (String × Nat) :=
  let orderNonce := generateOrderNonce (rng i)
  let orderCommitment := generateOrderCommitment orderData orderNonce
  let nullifier := generateOrderNullifier privateKey orderCommitment orderNonce
  if nullifierUsed nullifier then
    .error ⟨"Error", "Order nullifier already used - please try again"⟩
  else
    match submissionOutcome i with
    | .error e => .error e
    | .ok blockNumber => .ok (nullifier, blockNumber)

/-- The retry policy of `submitPrivateOrder` (orderManager.js lines
119-127): never retry an error mentioning `nullifier`, otherwise defer to
`isRetryableError`. -/
def submitShouldRetry (e : JsError) : Bool :=
  if jsIncludes e.message "nullifier" then false else isRetryableError e

/-- PrivateOrderManager.submitPrivateOrder: the attempt closure run under
`ErrorHandler.withRetry` with the default `maxRetries = 3`. -/
def submitPrivateOrder (privateKey : Nat) (orderData : OrderData)
    (rng : Nat → List Nat) (nullifierUsed : String → Bool)
    (submissionOutcome : Nat → Except JsError Nat) :
    Except JsError (String × Nat) :=
  withRetry
    (submitPrivateOrderAttempt privateKey orderData rng nullifierUsed
      submissionOutcome)
    submitShouldRetry 0 3

set_option maxRecDepth 4000 in
/-- C3: retrying a failed order submission is not idempotent.  The closure
re-run by `ErrorHandler.withRetry` calls `generateOrderNonce()` afresh on
every attempt (orderManager.js line 35 sits inside the retried closure
opened at line 31), so after a retryable failure on the first attempt the
submitted order carries the nullifier derived from the second attempt's
fresh random nonce (here byte draw `[0,...,0,2]`, nonce 2), which differs
from the first attempt's nullifier (nonce 1) — the commitment, nonce and
nullifier are regenerated, not reused, contradicting the claim. -/
theorem claim_C3_retry_regenerates_nonce :
    submitPrivateOrder 1 ⟨"0x1", "5", "", 0, true, 1, "", ""⟩
      (fun i => List.replicate 31 0 ++ [i + 1]) (fun _ => false)
      (fun i => if i = 0 then .error ⟨"Error", "network timeout"⟩ else .ok 7) =
      .ok (generateOrderNullifier 1
        (generateOrderCommitment ⟨"0x1", "5", "", 0, true, 1, "", ""⟩ 2) 2, 7) ∧
    generateOrderNullifier 1
        (generateOrderCommitment ⟨"0x1", "5", "", 0, true, 1, "", ""⟩ 2) 2 ≠
      generateOrderNullifier 1
        (generateOrderCommitment ⟨"0x1", "5", "", 0, true, 1, "", ""⟩ 1) 1 := by
  exact ⟨by rfl, by decide⟩

/-- COMMIT_REVEAL_DELAY (constants.js lines 54 and 180): 240 ledger
blocks. -/
def COMMIT_REVEAL_DELAY : Nat := 240

/-- Pending commit record stored by `createAccount`
(accountManager.js lines 72-78). -/
structure PendingCommit where
  commitment : Nat
  nonce : Nat
  commitHash : String
  blockNumber : Nat
  timestamp : Nat
deriving Repr, DecidableEq

/-- A reveal transaction as submitted to
`contract.revealTradingAccount(commitment.toHex(), nonce, proof)`. -/
structure RevealTx where
  commitment : String
  nonce : Nat
deriving Repr, DecidableEq

/-- One invocation of the closure inside
`PrivateAccountManager.revealAccount` (accountManager.js lines 104-163):
compare the blocks passed since the stored pending commit against
`COMMIT_REVEAL_DELAY`; too early throws a plain `Error` before any
transaction; otherwise the reveal transaction is submitted with the stored
commitment and nonce (its ledger outcome is the parameter `revealOutcome
i`).  The pair's second component records the reveal transactions actually
submitted. -/
def revealAccountAttempt (pc : PendingCommit) (currentBlock : Nat)
    (revealOutcome : Nat → Except JsError Nat) (i : Nat) :
    Except JsError (String × Nat) × List RevealTx :=
  let blocksPassed := currentBlock - pc.blockNumber
  if blocksPassed < COMMIT_REVEAL_DELAY then
    (.error ⟨"Error", "Must wait " ++
      toString (COMMIT_REVEAL_DELAY - blocksPassed) ++ " more blocks"⟩, [])
  else
    match revealOutcome i with
    | .error e => (.error e, [⟨feToHex pc.commitment, pc.nonce⟩])
    | .ok txHash =>
      (.ok (feToHex pc.commitment, txHash), [⟨feToHex pc.commitment, pc.nonce⟩])

/-- ErrorHandler.withRetry for a closure whose effects (submitted
transactions) are logged alongside its outcome; logs of successive attempts
accumulate. -/
def withRetryLog (fn : Nat → Except JsError α × List τ)
    (shouldRetry : JsError → Bool) : Nat → Nat → Except JsError α × List τ
  | i, 0 => fn i
  | i, rem + 1 =>
    match fn i with
    | (.ok a, log) => (.ok a, log)
    | (.error e, log) =>
      if shouldRetry e then
        let r := withRetryLog fn shouldRetry (i + 1) rem
        (r.1, log ++ r.2)
      else (.error e, log)

/-- PrivateAccountManager.revealAccount (accountManager.js lines 99-166):
fail fast when no pending commit is stored, otherwise run the attempt
closure under `withRetry` (default `maxRetries = 3`, retry policy
`isRetryableError`); the block height during the call is `currentBlock`. -/
def revealAccount (pending : Option PendingCommit) (currentBlock : Nat)
    (revealOutcome : Nat → Except JsError Nat) :
    Except JsError (String × Nat) × List RevealTx :=
  match pending with
  | none => (.error ⟨"Error", "No pending commit found"⟩, [])
  | some pc =>
    withRetryLog (revealAccountAttempt pc currentBlock revealOutcome)
      isRetryableError 0 3

theorem withRetryLog_const_error {α τ : Type}
    (fn : Nat → Except JsError α × List τ) (shouldRetry : JsError → Bool)
    (e : JsError) (hfn : ∀ j, fn j = (.error e, ([] : List τ))) :
    ∀ rem i, withRetryLog fn shouldRetry i rem = (.error e, []) := by
  intro rem
  induction rem with
  | zero => intro i; rw [withRetryLog, hfn i]
  | succ r ih =>
    intro i
    rw [withRetryLog, hfn i]
    show (if shouldRetry e then _ else _) = _
    split
    · rw [ih (i + 1)]
      rfl
    · rfl

/-- C4 (amended): a reveal attempted while fewer than
`COMMIT_REVEAL_DELAY` blocks have passed since the commit throws a plain
JavaScript `Error` ("Must wait N more blocks") — not a `TimingError`, no
such class exists in the codebase — and submits no reveal transaction
(every retry attempt fails the same height check); a reveal attempted once
at least `COMMIT_REVEAL_DELAY` blocks have passed submits the reveal
transaction built from the stored pending commitment and nonce and, when
the ledger accepts it, succeeds.  The committer-identity gate lives on the
ledger, not in this client code. -/
theorem claim_C4_reveal_timing (pc : PendingCommit) (currentBlock : Nat)
    (revealOutcome : Nat → Except JsError Nat) (txHash : Nat) :
    (currentBlock - pc.blockNumber < COMMIT_REVEAL_DELAY →
      revealAccount (some pc) currentBlock revealOutcome =
        (.error ⟨"Error", "Must wait " ++
          toString (COMMIT_REVEAL_DELAY - (currentBlock - pc.blockNumber)) ++
          " more blocks"⟩, [])) ∧
    (COMMIT_REVEAL_DELAY ≤ currentBlock - pc.blockNumber →
      revealOutcome 0 = .ok txHash →
      revealAccount (some pc) currentBlock revealOutcome =
        (.ok (feToHex pc.commitment, txHash),
         [⟨feToHex pc.commitment, pc.nonce⟩])) := by
  constructor
  · intro hlt
    have hfn : ∀ j, revealAccountAttempt pc currentBlock revealOutcome j =
        (.error ⟨"Error", "Must wait " ++
          toString (COMMIT_REVEAL_DELAY - (currentBlock - pc.blockNumber)) ++
          " more blocks"⟩, []) := by
      intro j
      unfold revealAccountAttempt
      rw [if_pos hlt]
    exact withRetryLog_const_error _ _ _ hfn 3 0
  · intro hge hok
    show withRetryLog _ _ 0 3 = _
    rw [withRetryLog]
    have hat : revealAccountAttempt pc currentBlock revealOutcome 0 =
        (.ok (feToHex pc.commitment, txHash),
         [⟨feToHex pc.commitment, pc.nonce⟩]) := by
      unfold revealAccountAttempt
      rw [if_neg (by omega), hok]
    rw [hat]

/-- Witness for C4 at a concrete pending commit (committed at block 100):
block 150 is 50 blocks in, below the 240-block delay, so the reveal fails
with the plain must-wait error and no transaction; block 340 is 240 blocks
in, so the stored commitment and nonce are revealed and the call
succeeds. -/
theorem claim_C4_reveal_timing_witness :
    (revealAccount (some ⟨5, 7, "0xa", 100, 0⟩) 150 (fun _ => .ok 9) =
      (.error ⟨"Error", "Must wait " ++
        toString (COMMIT_REVEAL_DELAY -
          (150 - (⟨5, 7, "0xa", 100, 0⟩ : PendingCommit).blockNumber)) ++
        " more blocks"⟩, [])) ∧
    (revealAccount (some ⟨5, 7, "0xa", 100, 0⟩) 340 (fun _ => .ok 9) =
      (.ok (feToHex 5, 9), [⟨feToHex 5, 7⟩])) :=
  ⟨(claim_C4_reveal_timing ⟨5, 7, "0xa", 100, 0⟩ 150 (fun _ => .ok 9) 9).1
      (by decide),
   (claim_C4_reveal_timing ⟨5, 7, "0xa", 100, 0⟩ 340 (fun _ => .ok 9) 9).2
      (by decide) rfl⟩

/-- C4 counterexample: at a pending commit only 50 blocks old, the reveal
raises a generic JavaScript `Error` whose class name is "Error" — not the
`TimingError` the claim names (no `TimingError` class exists anywhere in
the codebase). -/
theorem claim_C4_counterexample :
    (revealAccount (some ⟨5, 7, "0xa", 100, 0⟩) 150 (fun _ => .ok 9)).1 =
      .error ⟨"Error", "Must wait 190 more blocks"⟩ ∧
    ("Error" : String) ≠ "TimingError" := by
  exact ⟨by rfl, by decide⟩

/-! HD-wallet mnemonic validation (`hdKeyDerivation.js`) and, for the
checksum comparison, a SHA-256 implementation (the standard the spec's
checksum requirement refers to). -/

/-- Truncation to a 32-bit word. -/
def w32 (n : Nat) : Nat := n % 4294967296

/-- Right rotation of a 32-bit word. -/
def rotr (n x : Nat) : Nat := (x >>> n) ||| w32 (x <<< (32 - n))

/-- SHA-256 round constants (decimal). -/
def sha256K : List Nat := [
  1116352408, 1899447441, 3049323471, 3921009573, 961987163,
  1508970993, 2453635748, 2870763221, 3624381080, 310598401,
  607225278, 1426881987, 1925078388, 2162078206, 2614888103,
  3248222580, 3835390401, 4022224774, 264347078, 604807628,
  770255983, 1249150122, 1555081692, 1996064986, 2554220882,
  2821834349, 2952996808, 3210313671, 3336571891, 3584528711,
  113926993, 338241895, 666307205, 773529912, 1294757372,
  1396182291, 1695183700, 1986661051, 2177026350, 2456956037,
  2730485921, 2820302411, 3259730800, 3345764771, 3516065817,
  3600352804, 4094571909, 275423344, 430227734, 506948616,
  659060556, 883997877, 958139571, 1322822218, 1537002063,
  1747873779, 1955562222, 2024104815, 2227730452, 2361852424,
  2428436474, 2756734187, 3204031479, 3329325298]

/-- SHA-256 initial state (decimal). -/
def sha256H0 : List Nat := [
  1779033703, 3144134277, 1013904242, 2773480762,
  1359893119, 2600822924, 528734635, 1541459225]

/-- Group bytes into big-endian 32-bit words. -/
def bytesToWords : List Nat → List Nat
  | b0 :: b1 :: b2 :: b3 :: rest =>
    (((b0 * 256 + b1) * 256 + b2) * 256 + b3) :: bytesToWords rest
  | _ => []

/-- SHA-256 sigma-0 message-schedule function. -/
def smallSigma0 (x : Nat) : Nat := rotr 7 x ^^^ rotr 18 x ^^^ (x >>> 3)

/-- SHA-256 sigma-1 message-schedule function. -/
def smallSigma1 (x : Nat) : Nat := rotr 17 x ^^^ rotr 19 x ^^^ (x >>> 10)

/-- Extend the 16 block words to the 64-entry message schedule. -/
def extendWords : Nat → List Nat → List Nat
  | 0, ws => ws
  | n + 1, ws =>
    let L := ws.length
    extendWords n (ws ++ [w32 (smallSigma1 (ws.getD (L - 2) 0) +
      ws.getD (L - 7) 0 + smallSigma0 (ws.getD (L - 15) 0) +
      ws.getD (L - 16) 0)])

/-- One SHA-256 compression round on the state `[a,b,c,d,e,f,g,h]`. -/
def compressStep (st : List Nat) (kw : Nat × Nat) : List Nat :=
  match st with
  | [a, b, c, d, e, f, g, h] =>
    let S1 := rotr 6 e ^^^ rotr 11 e ^^^ rotr 25 e
    let ch := (e &&& f) ^^^ ((e ^^^ 0xffffffff) &&& g)
    let t1 := w32 (h + S1 + ch + kw.1 + kw.2)
    let S0 := rotr 2 a ^^^ rotr 13 a ^^^ rotr 22 a
    let mj := (a &&& b) ^^^ (a &&& c) ^^^ (b &&& c)
    let t2 := w32 (S0 + mj)
    [w32 (t1 + t2), a, b, c, w32 (d + t1), e, f, g]
  | other => other

/-- Process one 64-byte block. -/
def sha256Block (h : List Nat) (block : List Nat) : List Nat :=
  let ws := extendWords 48 (bytesToWords block)
  let st := (List.zip sha256K ws).foldl compressStep h
  List.zipWith (fun x y => w32 (x + y)) h st

/-- Standard SHA-256 padding: 0x80, zeros to 56 mod 64, 8-byte bit
length. -/
def sha256Pad (msg : List Nat) : List Nat :=
  let L := msg.length
  msg ++ [0x80] ++ List.replicate ((119 - L % 64) % 64) 0 ++
    beDigits 256 8 (8 * L)

/-- Fold the compression function over the 64-byte blocks (fuel bounds the
number of blocks). -/
def sha256BlocksAux : Nat → List Nat → List Nat → List Nat
  | 0, h, _ => h
  | fuel + 1, h, msg =>
    if msg.isEmpty then h
    else sha256BlocksAux fuel (sha256Block h (msg.take 64)) (msg.drop 64)

/-- SHA-256 digest (32 bytes) of a byte list. -/
def sha256 (msg : List Nat) : List Nat :=
  let padded := sha256Pad msg
  (sha256BlocksAux padded.length sha256H0 padded).flatMap
    (fun w => beDigits 256 4 w)

/-- The BIP39 wordlist of hdKeyDerivation.js lines 10-24: the first 104
words of the canonical 2048-word English list. -/
def BIP39_WORDLIST : List String := [
  "abandon", "ability", "able", "about", "above", "absent", "absorb",
  "abstract", "absurd", "abuse", "access", "accident", "account", "accuse",
  "achieve", "acid", "acoustic", "acquire", "across", "act", "action",
  "actor", "actress", "actual", "adapt", "add", "addict", "address",
  "adjust", "admit", "adult", "advance", "advice", "aerobic", "affair",
  "afford", "afraid", "again", "against", "age", "agent", "agree", "ahead",
  "aim", "air", "airport", "aisle", "alarm", "album", "alcohol", "alert",
  "alien", "all", "alley", "allow", "almost", "alone", "alpha", "already",
  "also", "alter", "always", "amateur", "amazing", "among", "amount",
  "amused", "analyst", "anchor", "ancient", "anger", "angle", "angry",
  "animal", "ankle", "announce", "annual", "another", "answer", "antenna",
  "antique", "anxiety", "any", "apart", "apology", "appear", "apple",
  "approve", "april", "arch", "arctic", "area", "arena", "argue", "arm",
  "armed", "armor", "army", "around", "arrange", "arrest", "arrive",
  "arrow", "art"]

/-- HDWallet.validateMnemonic (hdKeyDerivation.js lines 368-385): word
count must be one of 12, 15, 18, 21, 24 and every word must belong to the
(104-word) wordlist; the source explicitly leaves the checksum unverified
("In production, verify checksum").  The `trim().toLowerCase().split(/\s+/)`
of line 369 is modelled by taking the lowercase word list directly. -/
def validateMnemonic (words : List String) : Bool :=
  (words.length = 12 || words.length = 15 || words.length = 18 ||
   words.length = 21 || words.length = 24) &&
  words.all (fun w => BIP39_WORDLIST.contains w)

/-- HDWallet.restoreFromMnemonic (hdKeyDerivation.js lines 64-77): throw
`Error('Invalid mnemonic phrase')` when `validateMnemonic` rejects,
otherwise derive the 64-byte seed with PBKDF2-HMAC-SHA512 (a WebCrypto
primitive, taken as the parameter `pbkdf2`). -/
def restoreFromMnemonic (pbkdf2 : List String → List Nat)
    (words : List String) : Except JsError (List Nat) :=
  if validateMnemonic words then .ok (pbkdf2 words)
  else .error ⟨"Error", "Invalid mnemonic phrase"⟩

/-- Modelled from the spec: the canonical BIP39 checksum check, which the
spec requires of `restore` but which is absent from the source
(`hdKeyDerivation.js` computes only an XOR "checksum" at generation time
and never verifies any checksum).  Word positions in the source's 104-word
list equal their positions in the canonical 2048-word list, of which it is
a prefix; for an `n`-word mnemonic the low `11n/33` bits of the
concatenated 11-bit word indices must equal the leading bits of the SHA-256
digest of the remaining entropy bits. -/
def bip39ChecksumValid (words : List String) : Bool :=
  let n := words.length
  if n % 3 ≠ 0 || n = 0 then false
  else if !(words.all (fun w => BIP39_WORDLIST.contains w)) then false
  else
    let idxs := words.map (fun w => BIP39_WORDLIST.indexOf w)
    let total := idxs.foldl (fun acc i => acc * 2048 + i) 0
    let csBits := 11 * n / 33
    let entBytes := (11 * n - csBits) / 8
    let checksum := total % 2 ^ csBits
    let digest := sha256 (beDigits 256 entBytes (total >>> csBits))
    checksum = (digest.headD 0) >>> (8 - csBits)

/-- C5 (amended): restoring an HD wallet from a mnemonic validates exactly
the word count (∈ {12, 15, 18, 21, 24}) and membership of every word in
the truncated 104-word wordlist, throwing the generic
`Error('Invalid mnemonic phrase')` on failure before any seed is derived;
the BIP39 checksum is never verified. -/
theorem claim_C5_restore_validation (pbkdf2 : List String → List Nat)
    (words : List String) :
    restoreFromMnemonic pbkdf2 words =
      if (words.length = 12 ∨ words.length = 15 ∨ words.length = 18 ∨
          words.length = 21 ∨ words.length = 24) ∧
         (∀ w ∈ words, w ∈ BIP39_WORDLIST)
      then .ok (pbkdf2 words)
      else .error ⟨"Error", "Invalid mnemonic phrase"⟩ := by
  have hv : validateMnemonic words = true ↔
      ((words.length = 12 ∨ words.length = 15 ∨ words.length = 18 ∨
        words.length = 21 ∨ words.length = 24) ∧
       (∀ w ∈ words, w ∈ BIP39_WORDLIST)) := by
    simp only [validateMnemonic, Bool.and_eq_true, Bool.or_eq_true,
      decide_eq_true_eq, List.all_eq_true, List.elem_iff]
    tauto
  unfold restoreFromMnemonic
  by_cases h : validateMnemonic words = true
  · rw [if_pos h, if_pos (hv.mp h)]
  · rw [if_neg h, if_neg (fun hp => h (hv.mpr hp))]

/-- C5 counterexample: the word "abandon" repeated 12 times has a valid
word count and wordlist membership but an invalid BIP39 checksum (the
entropy is zero, SHA-256 of 16 zero bytes starts with nibble 3, so the only
checksum-valid final word is "about", index 3); `validateMnemonic`
nevertheless accepts it, and `restoreFromMnemonic` derives a seed from it
instead of raising an invalid-mnemonic error — refuting the claim that the
checksum is validated before seed derivation. -/
theorem claim_C5_counterexample :
    validateMnemonic (List.replicate 12 "abandon") = true ∧
    bip39ChecksumValid (List.replicate 12 "abandon") = false ∧
    restoreFromMnemonic (fun _ => [0]) (List.replicate 12 "abandon") =
      .ok [0] := by
  exact ⟨by decide, by decide, by rfl⟩


/-! Primality of the BN254 scalar field modulus, via Pratt certificates
built on Mathlib's `lucas_primality`, with all modular exponentiation
delegated to the embedded square-and-multiply loop `powLoop`. -/

theorem pow_mod_eq (n a e : Nat) (hn : 1 < n) (he : e < 2 ^ 256) :
    a ^ e % n = powLoop n 256 1 a e := by
  have h1 : (1 : Nat) % n = 1 := Nat.mod_eq_of_lt hn
  have h := powLoop_correct n 256 e 1 a he
  rw [h1] at h
  rw [h]
  ring_nf

theorem zmod_pow_eq_cast (n a e : Nat) (hn : 1 < n) (he : e < 2 ^ 256) :
    (a : ZMod n) ^ e = ((powLoop n 256 1 a e : Nat) : ZMod n) := by
  calc (a : ZMod n) ^ e = ((a ^ e : Nat) : ZMod n) := by push_cast; ring
    _ = ((a ^ e % n : Nat) : ZMod n) := (ZMod.natCast_mod _ _).symm
    _ = _ := by rw [pow_mod_eq n a e hn he]

theorem zmod_pow_eq_one (n a e : Nat) (hn : 1 < n) (he : e < 2 ^ 256)
    (h : powLoop n 256 1 a e = 1) : (a : ZMod n) ^ e = 1 := by
  rw [zmod_pow_eq_cast n a e hn he, h]
  exact Nat.cast_one

theorem zmod_pow_ne_one (n a e : Nat) (hn : 1 < n) (he : e < 2 ^ 256)
    (hne : powLoop n 256 1 a e ≠ 1) : (a : ZMod n) ^ e ≠ 1 := by
  intro hone
  rw [zmod_pow_eq_cast n a e hn he] at hone
  have hcast : ((powLoop n 256 1 a e : Nat) : ZMod n) = ((1 : Nat) : ZMod n) := by
    simpa using hone
  rw [ZMod.natCast_eq_natCast_iff'] at hcast
  have hlt : powLoop n 256 1 a e < n := by
    have := pow_mod_eq n a e hn he
    have h2 := Nat.mod_lt (a ^ e) (show 0 < n by omega)
    omega
  have h1 : (1 : Nat) % n = 1 := Nat.mod_eq_of_lt hn
  rw [Nat.mod_eq_of_lt hlt, h1] at hcast
  exact hne hcast

/-- Pratt certificate node: 405928799 is prime (Lucas witness 22). -/
theorem prime_405928799 : Nat.Prime 405928799 := by
  have hp11 : Nat.Prime 11 := by norm_num
  have hp3691 : Nat.Prime 3691 := by norm_num
  have hp4999 : Nat.Prime 4999 := by norm_num
  refine lucas_primality 405928799 ((22 : Nat) : ZMod 405928799)
    (zmod_pow_eq_one _ 22 _ (by norm_num) (by norm_num) (by decide)) ?_
  intro q hq hdvd
  have hfac : (405928799 - 1 : Nat) = 2 * 11 * 3691 * 4999 := by norm_num
  rw [hfac] at hdvd
  have hqc : q = 2 ∨ q = 11 ∨ q = 3691 ∨ q = 4999 := by
    have h := hdvd
    rcases (Nat.Prime.dvd_mul hq).mp h with h | h
    · rcases (Nat.Prime.dvd_mul hq).mp h with h | h
      · rcases (Nat.Prime.dvd_mul hq).mp h with h | h
        · exact Or.inl ((Nat.prime_dvd_prime_iff_eq hq Nat.prime_two).mp h)
        · exact Or.inr (Or.inl ((Nat.prime_dvd_prime_iff_eq hq hp11).mp h))
      · exact Or.inr (Or.inr (Or.inl ((Nat.prime_dvd_prime_iff_eq hq hp3691).mp h)))
    · exact Or.inr (Or.inr (Or.inr ((Nat.prime_dvd_prime_iff_eq hq hp4999).mp h)))
  rcases hqc with rfl | rfl | rfl | rfl
  · exact zmod_pow_ne_one _ 22 _ (by norm_num) (by norm_num) (by decide)
  · exact zmod_pow_ne_one _ 22 _ (by norm_num) (by norm_num) (by decide)
  · exact zmod_pow_ne_one _ 22 _ (by norm_num) (by norm_num) (by decide)
  · exact zmod_pow_ne_one _ 22 _ (by norm_num) (by norm_num) (by decide)

/-- Pratt certificate node: 12048837557 is prime (Lucas witness 2). -/
theorem prime_12048837557 : Nat.Prime 12048837557 := by
  have hp7 : Nat.Prime 7 := by norm_num
  have hp661 : Nat.Prime 661 := by norm_num
  have hp93001 : Nat.Prime 93001 := by norm_num
  refine lucas_primality 12048837557 ((2 : Nat) : ZMod 12048837557)
    (zmod_pow_eq_one _ 2 _ (by norm_num) (by norm_num) (by decide)) ?_
  intro q hq hdvd
  have hfac : (12048837557 - 1 : Nat) = 2 ^ 2 * 7 ^ 2 * 661 * 93001 := by norm_num
  rw [hfac] at hdvd
  have hqc : q = 2 ∨ q = 7 ∨ q = 661 ∨ q = 93001 := by
    have h := hdvd
    rcases (Nat.Prime.dvd_mul hq).mp h with h | h
    · rcases (Nat.Prime.dvd_mul hq).mp h with h | h
      · rcases (Nat.Prime.dvd_mul hq).mp h with h | h
        · exact Or.inl ((Nat.prime_dvd_prime_iff_eq hq Nat.prime_two).mp (hq.dvd_of_dvd_pow h))
        · exact Or.inr (Or.inl ((Nat.prime_dvd_prime_iff_eq hq hp7).mp (hq.dvd_of_dvd_pow h)))
      · exact Or.inr (Or.inr (Or.inl ((Nat.prime_dvd_prime_iff_eq hq hp661).mp h)))
    · exact Or.inr (Or.inr (Or.inr ((Nat.prime_dvd_prime_iff_eq hq hp93001).mp h)))
  rcases hqc with rfl | rfl | rfl | rfl
  · exact zmod_pow_ne_one _ 2 _ (by norm_num) (by norm_num) (by decide)
  · exact zmod_pow_ne_one _ 2 _ (by norm_num) (by norm_num) (by decide)
  · exact zmod_pow_ne_one _ 2 _ (by norm_num) (by norm_num) (by decide)
  · exact zmod_pow_ne_one _ 2 _ (by norm_num) (by norm_num) (by decide)

/-- Pratt certificate node: 5156902474397 is prime (Lucas witness 2). -/
theorem prime_5156902474397 : Nat.Prime 5156902474397 := by
  have hp107 : Nat.Prime 107 := by norm_num
  refine lucas_primality 5156902474397 ((2 : Nat) : ZMod 5156902474397)
    (zmod_pow_eq_one _ 2 _ (by norm_num) (by norm_num) (by decide)) ?_
  intro q hq hdvd
  have hfac : (5156902474397 - 1 : Nat) = 2 ^ 2 * 107 * 12048837557 := by norm_num
  rw [hfac] at hdvd
  have hqc : q = 2 ∨ q = 107 ∨ q = 12048837557 := by
    have h := hdvd
    rcases (Nat.Prime.dvd_mul hq).mp h with h | h
    · rcases (Nat.Prime.dvd_mul hq).mp h with h | h
      · exact Or.inl ((Nat.prime_dvd_prime_iff_eq hq Nat.prime_two).mp (hq.dvd_of_dvd_pow h))
      · exact Or.inr (Or.inl ((Nat.prime_dvd_prime_iff_eq hq hp107).mp h))
    · exact Or.inr (Or.inr ((Nat.prime_dvd_prime_iff_eq hq prime_12048837557).mp h))
  rcases hqc with rfl | rfl | rfl
  · exact zmod_pow_ne_one _ 2 _ (by norm_num) (by norm_num) (by decide)
  · exact zmod_pow_ne_one _ 2 _ (by norm_num) (by norm_num) (by decide)
  · exact zmod_pow_ne_one _ 2 _ (by norm_num) (by norm_num) (by decide)

/-- Pratt certificate node: 1670836401704629 is prime (Lucas witness 2). -/
theorem prime_1670836401704629 : Nat.Prime 1670836401704629 := by
  refine lucas_primality 1670836401704629 ((2 : Nat) : ZMod 1670836401704629)
    (zmod_pow_eq_one _ 2 _ (by norm_num) (by norm_num) (by decide)) ?_
  intro q hq hdvd
  have hfac : (1670836401704629 - 1 : Nat) = 2 ^ 2 * 3 ^ 4 * 5156902474397 := by norm_num
  rw [hfac] at hdvd
  have hqc : q = 2 ∨ q = 3 ∨ q = 5156902474397 := by
    have h := hdvd
    rcases (Nat.Prime.dvd_mul hq).mp h with h | h
    · rcases (Nat.Prime.dvd_mul hq).mp h with h | h
      · exact Or.inl ((Nat.prime_dvd_prime_iff_eq hq Nat.prime_two).mp (hq.dvd_of_dvd_pow h))
      · exact Or.inr (Or.inl ((Nat.prime_dvd_prime_iff_eq hq Nat.prime_three).mp (hq.dvd_of_dvd_pow h)))
    · exact Or.inr (Or.inr ((Nat.prime_dvd_prime_iff_eq hq prime_5156902474397).mp h))
  rcases hqc with rfl | rfl | rfl
  · exact zmod_pow_ne_one _ 2 _ (by norm_num) (by norm_num) (by decide)
  · exact zmod_pow_ne_one _ 2 _ (by norm_num) (by norm_num) (by decide)
  · exact zmod_pow_ne_one _ 2 _ (by norm_num) (by norm_num) (by decide)

/-- Pratt certificate node: 639533339 is prime (Lucas witness 2). -/
theorem prime_639533339 : Nat.Prime 639533339 := by
  have hp229 : Nat.Prime 229 := by norm_num
  have hp853 : Nat.Prime 853 := by norm_num
  have hp1637 : Nat.Prime 1637 := by norm_num
  refine lucas_primality 639533339 ((2 : Nat) : ZMod 639533339)
    (zmod_pow_eq_one _ 2 _ (by norm_num) (by norm_num) (by decide)) ?_
  intro q hq hdvd
  have hfac : (639533339 - 1 : Nat) = 2 * 229 * 853 * 1637 := by norm_num
  rw [hfac] at hdvd
  have hqc : q = 2 ∨ q = 229 ∨ q = 853 ∨ q = 1637 := by
    have h := hdvd
    rcases (Nat.Prime.dvd_mul hq).mp h with h | h
    · rcases (Nat.Prime.dvd_mul hq).mp h with h | h
      · rcases (Nat.Prime.dvd_mul hq).mp h with h | h
        · exact Or.inl ((Nat.prime_dvd_prime_iff_eq hq Nat.prime_two).mp h)
        · exact Or.inr (Or.inl ((Nat.prime_dvd_prime_iff_eq hq hp229).mp h))
      · exact Or.inr (Or.inr (Or.inl ((Nat.prime_dvd_prime_iff_eq hq hp853).mp h)))
    · exact Or.inr (Or.inr (Or.inr ((Nat.prime_dvd_prime_iff_eq hq hp1637).mp h)))
  rcases hqc with rfl | rfl | rfl | rfl
  · exact zmod_pow_ne_one _ 2 _ (by norm_num) (by norm_num) (by decide)
  · exact zmod_pow_ne_one _ 2 _ (by norm_num) (by norm_num) (by decide)
  · exact zmod_pow_ne_one _ 2 _ (by norm_num) (by norm_num) (by decide)
  · exact zmod_pow_ne_one _ 2 _ (by norm_num) (by norm_num) (by decide)

/-- Pratt certificate node: 65865678001877903 is prime (Lucas witness 5). -/
theorem prime_65865678001877903 : Nat.Prime 65865678001877903 := by
  have hp83 : Nat.Prime 83 := by norm_num
  have hp379 : Nat.Prime 379 := by norm_num
  have hp1637 : Nat.Prime 1637 := by norm_num
  refine lucas_primality 65865678001877903 ((5 : Nat) : ZMod 65865678001877903)
    (zmod_pow_eq_one _ 5 _ (by norm_num) (by norm_num) (by decide)) ?_
  intro q hq hdvd
  have hfac : (65865678001877903 - 1 : Nat) = 2 * 83 * 379 * 1637 * 639533339 := by norm_num
  rw [hfac] at hdvd
  have hqc : q = 2 ∨ q = 83 ∨ q = 379 ∨ q = 1637 ∨ q = 639533339 := by
    have h := hdvd
    rcases (Nat.Prime.dvd_mul hq).mp h with h | h
    · rcases (Nat.Prime.dvd_mul hq).mp h with h | h
      · rcases (Nat.Prime.dvd_mul hq).mp h with h | h
        · rcases (Nat.Prime.dvd_mul hq).mp h with h | h
          · exact Or.inl ((Nat.prime_dvd_prime_iff_eq hq Nat.prime_two).mp h)
          · exact Or.inr (Or.inl ((Nat.prime_dvd_prime_iff_eq hq hp83).mp h))
        · exact Or.inr (Or.inr (Or.inl ((Nat.prime_dvd_prime_iff_eq hq hp379).mp h)))
      · exact Or.inr (Or.inr (Or.inr (Or.inl ((Nat.prime_dvd_prime_iff_eq hq hp1637).mp h))))
    · exact Or.inr (Or.inr (Or.inr (Or.inr ((Nat.prime_dvd_prime_iff_eq hq prime_639533339).mp h))))
  rcases hqc with rfl | rfl | rfl | rfl | rfl
  · exact zmod_pow_ne_one _ 5 _ (by norm_num) (by norm_num) (by decide)
  · exact zmod_pow_ne_one _ 5 _ (by norm_num) (by norm_num) (by decide)
  · exact zmod_pow_ne_one _ 5 _ (by norm_num) (by norm_num) (by decide)
  · exact zmod_pow_ne_one _ 5 _ (by norm_num) (by norm_num) (by decide)
  · exact zmod_pow_ne_one _ 5 _ (by norm_num) (by norm_num) (by decide)

/-- Pratt certificate node: 13818364434197438864469338081 is prime (Lucas witness 3). -/
theorem prime_13818364434197438864469338081 : Nat.Prime 13818364434197438864469338081 := by
  have hp5 : Nat.Prime 5 := by norm_num
  have hp823 : Nat.Prime 823 := by norm_num
  have hp1593227 : Nat.Prime 1593227 := by norm_num
  refine lucas_primality 13818364434197438864469338081 ((3 : Nat) : ZMod 13818364434197438864469338081)
    (zmod_pow_eq_one _ 3 _ (by norm_num) (by norm_num) (by decide)) ?_
  intro q hq hdvd
  have hfac : (13818364434197438864469338081 - 1 : Nat) = 2 ^ 5 * 5 * 823 * 1593227 * 65865678001877903 := by norm_num
  rw [hfac] at hdvd
  have hqc : q = 2 ∨ q = 5 ∨ q = 823 ∨ q = 1593227 ∨ q = 65865678001877903 := by
    have h := hdvd
    rcases (Nat.Prime.dvd_mul hq).mp h with h | h
    · rcases (Nat.Prime.dvd_mul hq).mp h with h | h
      · rcases (Nat.Prime.dvd_mul hq).mp h with h | h
        · rcases (Nat.Prime.dvd_mul hq).mp h with h | h
          · exact Or.inl ((Nat.prime_dvd_prime_iff_eq hq Nat.prime_two).mp (hq.dvd_of_dvd_pow h))
          · exact Or.inr (Or.inl ((Nat.prime_dvd_prime_iff_eq hq hp5).mp h))
        · exact Or.inr (Or.inr (Or.inl ((Nat.prime_dvd_prime_iff_eq hq hp823).mp h)))
      · exact Or.inr (Or.inr (Or.inr (Or.inl ((Nat.prime_dvd_prime_iff_eq hq hp1593227).mp h))))
    · exact Or.inr (Or.inr (Or.inr (Or.inr ((Nat.prime_dvd_prime_iff_eq hq prime_65865678001877903).mp h))))
  rcases hqc with rfl | rfl | rfl | rfl | rfl
  · exact zmod_pow_ne_one _ 3 _ (by norm_num) (by norm_num) (by decide)
  · exact zmod_pow_ne_one _ 3 _ (by norm_num) (by norm_num) (by decide)
  · exact zmod_pow_ne_one _ 3 _ (by norm_num) (by norm_num) (by decide)
  · exact zmod_pow_ne_one _ 3 _ (by norm_num) (by norm_num) (by decide)
  · exact zmod_pow_ne_one _ 3 _ (by norm_num) (by norm_num) (by decide)

/-- Pratt certificate node: 21888242871839275222246405745257275088548364400416034343698204186575808495617 is prime (Lucas witness 5). -/
theorem prime_21888242871839275222246405745257275088548364400416034343698204186575808495617 : Nat.Prime 21888242871839275222246405745257275088548364400416034343698204186575808495617 := by
  have hp13 : Nat.Prime 13 := by norm_num
  have hp29 : Nat.Prime 29 := by norm_num
  have hp983 : Nat.Prime 983 := by norm_num
  have hp11003 : Nat.Prime 11003 := by norm_num
  have hp237073 : Nat.Prime 237073 := by norm_num
  refine lucas_primality 21888242871839275222246405745257275088548364400416034343698204186575808495617 ((5 : Nat) : ZMod 21888242871839275222246405745257275088548364400416034343698204186575808495617)
    (zmod_pow_eq_one _ 5 _ (by norm_num) (by norm_num) (by decide)) ?_
  intro q hq hdvd
  have hfac : (21888242871839275222246405745257275088548364400416034343698204186575808495617 - 1 : Nat) = 2 ^ 28 * 3 ^ 2 * 13 * 29 * 983 * 11003 * 237073 * 405928799 * 1670836401704629 * 13818364434197438864469338081 := by norm_num
  rw [hfac] at hdvd
  have hqc : q = 2 ∨ q = 3 ∨ q = 13 ∨ q = 29 ∨ q = 983 ∨ q = 11003 ∨ q = 237073 ∨ q = 405928799 ∨ q = 1670836401704629 ∨ q = 13818364434197438864469338081 := by
    have h := hdvd
    rcases (Nat.Prime.dvd_mul hq).mp h with h | h
    · rcases (Nat.Prime.dvd_mul hq).mp h with h | h
      · rcases (Nat.Prime.dvd_mul hq).mp h with h | h
        · rcases (Nat.Prime.dvd_mul hq).mp h with h | h
          · rcases (Nat.Prime.dvd_mul hq).mp h with h | h
            · rcases (Nat.Prime.dvd_mul hq).mp h with h | h
              · rcases (Nat.Prime.dvd_mul hq).mp h with h | h
                · rcases (Nat.Prime.dvd_mul hq).mp h with h | h
                  · rcases (Nat.Prime.dvd_mul hq).mp h with h | h
                    · exact Or.inl ((Nat.prime_dvd_prime_iff_eq hq Nat.prime_two).mp (hq.dvd_of_dvd_pow h))
                    · exact Or.inr (Or.inl ((Nat.prime_dvd_prime_iff_eq hq Nat.prime_three).mp (hq.dvd_of_dvd_pow h)))
                  · exact Or.inr (Or.inr (Or.inl ((Nat.prime_dvd_prime_iff_eq hq hp13).mp h)))
                · exact Or.inr (Or.inr (Or.inr (Or.inl ((Nat.prime_dvd_prime_iff_eq hq hp29).mp h))))
              · exact Or.inr (Or.inr (Or.inr (Or.inr (Or.inl ((Nat.prime_dvd_prime_iff_eq hq hp983).mp h)))))
            · exact Or.inr (Or.inr (Or.inr (Or.inr (Or.inr (Or.inl ((Nat.prime_dvd_prime_iff_eq hq hp11003).mp h))))))
          · exact Or.inr (Or.inr (Or.inr (Or.inr (Or.inr (Or.inr (Or.inl ((Nat.prime_dvd_prime_iff_eq hq hp237073).mp h)))))))
        · exact Or.inr (Or.inr (Or.inr (Or.inr (Or.inr (Or.inr (Or.inr (Or.inl ((Nat.prime_dvd_prime_iff_eq hq prime_405928799).mp h))))))))
      · exact Or.inr (Or.inr (Or.inr (Or.inr (Or.inr (Or.inr (Or.inr (Or.inr (Or.inl ((Nat.prime_dvd_prime_iff_eq hq prime_1670836401704629).mp h)))))))))
    · exact Or.inr (Or.inr (Or.inr (Or.inr (Or.inr (Or.inr (Or.inr (Or.inr (Or.inr ((Nat.prime_dvd_prime_iff_eq hq prime_13818364434197438864469338081).mp h)))))))))
  rcases hqc with rfl | rfl | rfl | rfl | rfl | rfl | rfl | rfl | rfl | rfl
  · exact zmod_pow_ne_one _ 5 _ (by norm_num) (by norm_num) (by decide)
  · exact zmod_pow_ne_one _ 5 _ (by norm_num) (by norm_num) (by decide)
  · exact zmod_pow_ne_one _ 5 _ (by norm_num) (by norm_num) (by decide)
  · exact zmod_pow_ne_one _ 5 _ (by norm_num) (by norm_num) (by decide)
  · exact zmod_pow_ne_one _ 5 _ (by norm_num) (by norm_num) (by decide)
  · exact zmod_pow_ne_one _ 5 _ (by norm_num) (by norm_num) (by decide)
  · exact zmod_pow_ne_one _ 5 _ (by norm_num) (by norm_num) (by decide)
  · exact zmod_pow_ne_one _ 5 _ (by norm_num) (by norm_num) (by decide)
  · exact zmod_pow_ne_one _ 5 _ (by norm_num) (by norm_num) (by decide)
  · exact zmod_pow_ne_one _ 5 _ (by norm_num) (by norm_num) (by decide)


/-- The BN254 scalar field modulus is prime. -/
theorem prime_FIELD_SIZE : Nat.Prime FIELD_SIZE :=
  prime_21888242871839275222246405745257275088548364400416034343698204186575808495617

theorem mkFieldElement_of_lt (v : Nat) (h : v < FIELD_SIZE) :
    mkFieldElement v = v := by
  have h1 : ((v : Int)).tmod FIELD_SIZE = v :=
    Int.tmod_eq_of_lt (by positivity) (by exact_mod_cast h)
  show (if (v : Int).tmod FIELD_SIZE < 0 then (v : Int).tmod FIELD_SIZE +
    FIELD_SIZE else (v : Int).tmod FIELD_SIZE).toNat = v
  rw [h1]
  split <;> omega

theorem feInv_eq_powMod (x : Nat) :
    feInv x = x ^ (FIELD_SIZE - 2) % FIELD_SIZE := by
  have hP1 : 1 < FIELD_SIZE := prime_FIELD_SIZE.one_lt
  have he : FIELD_SIZE - 2 < 2 ^ 256 := by decide
  unfold feInv fePow
  rw [← pow_mod_eq FIELD_SIZE x (FIELD_SIZE - 2) hP1 he]
  exact mkFieldElement_of_lt _ (Nat.mod_lt _ (by omega))

theorem feInv_mul_cancel (x : Nat) (hx0 : 0 < x) (hx : x < FIELD_SIZE) :
    feInv x * x % FIELD_SIZE = 1 := by
  haveI : Fact (Nat.Prime FIELD_SIZE) := ⟨prime_FIELD_SIZE⟩
  have hP1 : 1 < FIELD_SIZE := prime_FIELD_SIZE.one_lt
  have hinv : feInv x = x ^ (FIELD_SIZE - 2) % FIELD_SIZE := feInv_eq_powMod x
  have hxz : ((x : Nat) : ZMod FIELD_SIZE) ≠ 0 := by
    intro h0
    have hval := congrArg ZMod.val h0
    rw [ZMod.val_cast_of_lt hx, ZMod.val_zero] at hval
    omega
  have hferm : ((x : Nat) : ZMod FIELD_SIZE) ^ (FIELD_SIZE - 1) = 1 :=
    ZMod.pow_card_sub_one_eq_one hxz
  have hmain : ((x : Nat) : ZMod FIELD_SIZE) ^ (FIELD_SIZE - 2) *
      ((x : Nat) : ZMod FIELD_SIZE) = 1 := by
    rw [← pow_succ, show FIELD_SIZE - 2 + 1 = FIELD_SIZE - 1 by omega]
    exact hferm
  have hcast : (((feInv x * x % FIELD_SIZE : Nat)) : ZMod FIELD_SIZE) =
      ((1 : Nat) : ZMod FIELD_SIZE) := by
    rw [ZMod.natCast_mod, Nat.cast_mul, hinv, ZMod.natCast_mod, Nat.cast_pow]
    simpa using hmain
  have hlt : feInv x * x % FIELD_SIZE < FIELD_SIZE := Nat.mod_lt _ (by omega)
  have hval := congrArg ZMod.val hcast
  rw [ZMod.val_cast_of_lt hlt, ZMod.val_cast_of_lt hP1] at hval
  exact hval

theorem powLoop_zero_base (m : Nat) (hm : 1 < m) (e : Nat) (he0 : 0 < e)
    (he : e < 2 ^ 256) : powLoop m 256 1 0 e = 0 := by
  have h1 : (1 : Nat) % m = 1 := Nat.mod_eq_of_lt hm
  have h := powLoop_correct m 256 e 1 0 he
  rw [h1] at h
  rw [h, Nat.zero_pow he0, Nat.mul_zero, Nat.zero_mod]

theorem feInv_zero : feInv 0 = 0 := by
  unfold feInv fePow
  rw [powLoop_zero_base FIELD_SIZE prime_FIELD_SIZE.one_lt (FIELD_SIZE - 2)
    (by decide) (by decide)]
  exact mkFieldElement_of_lt 0 prime_FIELD_SIZE.pos

/-- C6 (amended): for every nonzero field element x,
`FieldElement.inv(x)` (Fermat inversion, `pow(FIELD_SIZE - 2)`) satisfies
`inv(x) * x ≡ 1 (mod p)`; the standalone helper `inverseFieldElement`
throws "Cannot compute inverse of zero" on the zero element, but
`FieldElement.inv` itself has no zero check and returns the zero element
for input 0 instead of raising. -/
theorem claim_C6_field_inverse (x : Nat) (hx0 : 0 < x) (hx : x < FIELD_SIZE) :
    feInv x * x % FIELD_SIZE = 1 ∧
    inverseFieldElement 0 =
      .error ⟨"Error", "Cannot compute inverse of zero"⟩ ∧
    feInv 0 = 0 := by
  refine ⟨feInv_mul_cancel x hx0 hx, by rfl, feInv_zero⟩

/-- Witness for C6 at x = 2. -/
theorem claim_C6_field_inverse_witness :
    (0 : Nat) < 2 ∧ (2 : Nat) < FIELD_SIZE ∧
    (feInv 2 * 2 % FIELD_SIZE = 1 ∧
     inverseFieldElement 0 =
       .error ⟨"Error", "Cannot compute inverse of zero"⟩ ∧
     feInv 0 = 0) :=
  ⟨by decide, by decide, claim_C6_field_inverse 2 (by decide) (by decide)⟩

/-- C6 counterexample: `FieldElement.inv` is a total function with no
error path (fieldElement.js lines 104-107 contain no zero check and no
throw); on the zero element it returns the zero element rather than
raising CryptoError/DivisionByZero as the claim states.  Only the separate
helper `inverseFieldElement` (lines 239-247) throws. -/
theorem claim_C6_counterexample : feInv 0 = 0 := feInv_zero

/-! Order encryption (`orderEncryption.js`, class `OrderEncryption`). The
JavaScript here is dynamically typed: `deriveEncryptionKey` passes the
`Uint8Array` produced by `generateSharedSecret` to `bigintToBytes`, whose
`v & 0xFFn` then throws `TypeError: Cannot mix BigInt and other types`.
`JsVal` distinguishes the two runtime types so the embedding can express
this. -/

/-- A JavaScript value that is either a BigInt or a Uint8Array. -/
inductive JsVal where
  | big : Int → JsVal
  | buf : List Nat → JsVal
deriving Repr, DecidableEq

/-- OrderEncryption.bigintToBytes (orderEncryption.js lines 592-602):
big-endian bytes of a BigInt.  When handed a non-BigInt (the shared-secret
`Uint8Array`), the `v & 0xFFn` of line 597 mixes a BigInt operand with a
non-BigInt and JavaScript throws a TypeError. -/
def bigintToBytes (value : JsVal) (length : Nat) :
    Except JsError (List Nat) :=
  match value with
  | .big v => .ok (beDigits 256 length v.toNat)
  | .buf _ => .error ⟨"TypeError", "Cannot mix BigInt and other types"⟩

/-- Field-element values of FieldElement.fromString /
the FieldElement constructor on strings: the `0x` prefix is stripped when
present and the digits are always parsed as hexadecimal (a decimal string
reaching the constructor is prefixed with `0x` on line 10 of
fieldElement.js and read as hex). -/
def hexCharVal (c : Char) : Nat :=
  if c.toNat ≥ 97 then c.toNat - 87
  else if c.toNat ≥ 65 then c.toNat - 55
  else c.toNat - 48

/-- Parse a string as hex digits, ignoring an optional 0x prefix. -/
def parseHex (s : String) : Nat :=
  (match s.data with
   | '0' :: 'x' :: rest => rest
   | l => l).foldl (fun acc c => acc * 16 + hexCharVal c) 0

/-- FieldElement.fromString (fieldElement.js lines 37-54): both branches
end in the constructor's hex parse. -/
def feFromString (s : String) : Nat :=
  mkFieldElement (parseHex s)

/-- OrderEncryption.generateSharedSecret (orderEncryption.js lines
298-355): the WebCrypto attempt (raw import of a *private* key for P-256
ECDH) always throws and is caught; the fallback multiplies the two keys as
field elements and returns the 32 big-endian bytes — a `Uint8Array`. -/
def generateSharedSecret (privateKey : Int) (publicKey : String) : JsVal :=
  .buf (beDigits 256 32
    (feMul (mkFieldElement privateKey) (feFromString publicKey)))

/-- OrderEncryption.deriveEncryptionKey (orderEncryption.js lines
370-377): `bigintToBytes(sharedSecret, 32)` followed by SHA-256.  Because
`generateSharedSecret` returns a `Uint8Array`, the `bigintToBytes` call
always throws the mixing TypeError. -/
def deriveEncryptionKey (sharedSecret : JsVal) : Except JsError (List Nat) := do
  let secretBytes ← bigintToBytes sharedSecret 32
  return sha256 secretBytes

/-- OrderEncryption.derivePublicKey (orderEncryption.js lines 383-387):
`(privateKey * 2n) % FIELD_SIZE`, rendered by `toString(16)` with no 0x
prefix and no padding. -/
def derivePublicKey (privateKey : Int) : String :=
  ⟨(hexDigits ((privateKey * 2).tmod FIELD_SIZE).toNat).map hexCharOfDigit⟩

/-- OrderEncryption.hashOrder (orderEncryption.js lines 488-504): the
weighted field sum of six parsed order fields, rendered by
`toString(16)`. -/
def hashOrder (od : OrderData) : String :=
  let elements := [feFromString od.market, feFromString od.size,
    feFromString (if od.price = "" then "0" else od.price),
    mkFieldElement (if od.isLong then 1 else 0),
    mkFieldElement od.orderType, mkFieldElement od.leverage]
  let h := ((elements.zip (List.range 6)).foldl
    (fun h p => feAdd h (feMul p.1 (mkFieldElement (p.2 + 1)))) 0)
  ⟨(hexDigits h).map hexCharOfDigit⟩

/-- The object returned by `encryptOrderForKeeper` (orderEncryption.js
lines 209-216); the metadata timestamp/version fields are omitted as inert.
`encrypted` is the AES-GCM ciphertext without the 16-byte tag, `iv` the
12-byte GCM IV, `authTag` the 16-byte tag. -/
structure EncryptedOrder where
  encrypted : List Nat
  iv : List Nat
  authTag : List Nat
  ephemeralPublicKey : String
  orderHash : String
deriving Repr, DecidableEq

/-- OrderEncryption.encryptWithAES (orderEncryption.js lines 394-420):
12-byte random IV (`iv12`), WebCrypto AES-GCM (parameter `aesGcm`, giving
ciphertext ∥ tag), split at the last 16 bytes. -/
def encryptWithAES (aesGcm : List Nat → List Nat → List Nat → List Nat)
    (iv12 : List Nat) (data key : List Nat) :
    List Nat × List Nat × List Nat :=
  let out := aesGcm key iv12 data
  (out.take (out.length - 16), iv12, out.drop (out.length - 16))

/-- OrderEncryption.encryptOrderForKeeper (orderEncryption.js lines
187-220).  External primitives are parameters: `jsonEnc` is
`JSON.stringify` of `serializeOrder` (line 456), `aesGcm` the WebCrypto
AES-GCM, `iv12` the 12 random IV bytes.  The try-block derives the shared
secret and then the AES key; since `deriveEncryptionKey` always throws the
mixing TypeError, the catch of line 217 always rethrows
`Failed to encrypt order: ...` and no ciphertext is ever produced. -/
def encryptOrderForKeeper (jsonEnc : OrderData → List Nat)
    (aesGcm : List Nat → List Nat → List Nat → List Nat) (iv12 : List Nat)
    (orderData : OrderData) (keeperPublicKey : String)
    (userPrivateKey : Int) : Except JsError EncryptedOrder :=
  match (do
    let sharedSecret := generateSharedSecret userPrivateKey keeperPublicKey
    let encryptionKey ← deriveEncryptionKey sharedSecret
    let serialized := jsonEnc orderData
    let enc := encryptWithAES aesGcm iv12 serialized encryptionKey
    return { encrypted := enc.1, iv := enc.2.1, authTag := enc.2.2,
             ephemeralPublicKey := derivePublicKey userPrivateKey,
             orderHash := hashOrder orderData } :
    Except JsError EncryptedOrder) with
  | .ok v => .ok v
  | .error e => .error ⟨"Error", "Failed to encrypt order: " ++ e.message⟩

/-- OrderEncryption.decryptOrderForKeeper (orderEncryption.js lines
227-257): mirror of the encryption path with the keeper's private key and
the embedded ephemeral public key; `aesGcmDec` is the WebCrypto decryption
(`none` models an authentication failure), `jsonDec` the JSON parse.  The
shared-secret key derivation throws the same mixing TypeError before any
of them run, so the catch of line 254 always rethrows
`Failed to decrypt order: ...`. -/
def decryptOrderForKeeper
    (aesGcmDec : List Nat → List Nat → List Nat → Option (List Nat))
    (jsonDec : List Nat → Option OrderData) (encryptedOrder : EncryptedOrder)
    (keeperPrivateKey : Int) : Except JsError OrderData :=
  match (do
    let sharedSecret := generateSharedSecret keeperPrivateKey
      encryptedOrder.ephemeralPublicKey
    let decryptionKey ← deriveEncryptionKey sharedSecret
    let decrypted ← match aesGcmDec decryptionKey encryptedOrder.iv
        (encryptedOrder.encrypted ++ encryptedOrder.authTag) with
      | none => .error (⟨"OperationError", "The operation failed"⟩ : JsError)
      | some d => .ok d
    let orderData ← match jsonDec decrypted with
      | none => .error (⟨"SyntaxError", "Unexpected token"⟩ : JsError)
      | some od => .ok od
    if hashOrder orderData ≠ encryptedOrder.orderHash then
      .error (⟨"Error", "Order hash mismatch - possible tampering"⟩ : JsError)
    else
      return orderData :
    Except JsError OrderData) with
  | .ok v => .ok v
  | .error e => .error ⟨"Error", "Failed to decrypt order: " ++ e.message⟩

/-- ZK_CONFIG.ENCRYPTED_ORDER_SIZE (zkConfig.js line 352), the size
`submitPrivateOrder` checks encrypted orders against. -/
def ENCRYPTED_ORDER_SIZE_zkConfig : Nat := 256

/-- ENCRYPTED_ORDER_SIZE (constants.js line 48). -/
def ENCRYPTED_ORDER_SIZE_constants : Nat := 512

/-- C2: the encrypted-order format of the claim does not exist in the
code.  `encryptOrderForKeeper` throws on every input (its key derivation
feeds a Uint8Array to `bigintToBytes`, raising the BigInt-mixing
TypeError), so no 512-byte payload — nor any payload — is ever produced;
were the AES layer reached, the IV would be 12 bytes, not 24, and no
oversized-plaintext check exists anywhere on the path.  The configured
size the order manager would check against is ZK_CONFIG.ENCRYPTED_ORDER_SIZE
= 256, contradicting both the claim's 512 and constants.js's own
ENCRYPTED_ORDER_SIZE = 512. -/
theorem claim_C2_encrypted_order_size (jsonEnc : OrderData → List Nat)
    (aesGcm : List Nat → List Nat → List Nat → List Nat) (iv12 : List Nat)
    (orderData : OrderData) (keeperPublicKey : String)
    (userPrivateKey : Int) :
    ENCRYPTED_ORDER_SIZE_zkConfig = 256 ∧
    ENCRYPTED_ORDER_SIZE_zkConfig ≠ ENCRYPTED_ORDER_SIZE_constants ∧
    encryptOrderForKeeper jsonEnc aesGcm iv12 orderData keeperPublicKey
        userPrivateKey =
      .error ⟨"Error",
        "Failed to encrypt order: Cannot mix BigInt and other types"⟩ :=
  ⟨rfl, by decide, rfl⟩

/-- C7: the encrypt/decrypt round trip never holds because neither
direction ever returns: both `encryptOrderForKeeper` and
`decryptOrderForKeeper` derive their AES key via
`deriveEncryptionKey(generateSharedSecret(...))`, which passes the
shared-secret `Uint8Array` where `bigintToBytes` requires a BigInt, so
every call throws the wrapped TypeError — for matching keys and mismatched
keys alike. -/
theorem claim_C7_roundtrip_never_runs (jsonEnc : OrderData → List Nat)
    (aesGcm : List Nat → List Nat → List Nat → List Nat) (iv12 : List Nat)
    (aesGcmDec : List Nat → List Nat → List Nat → Option (List Nat))
    (jsonDec : List Nat → Option OrderData) (orderData : OrderData)
    (keeperPublicKey : String) (userPrivateKey keeperPrivateKey : Int)
    (encryptedOrder : EncryptedOrder) :
    encryptOrderForKeeper jsonEnc aesGcm iv12 orderData keeperPublicKey
        userPrivateKey =
      .error ⟨"Error",
        "Failed to encrypt order: Cannot mix BigInt and other types"⟩ ∧
    decryptOrderForKeeper aesGcmDec jsonDec encryptedOrder
        keeperPrivateKey =
      .error ⟨"Error",
        "Failed to decrypt order: Cannot mix BigInt and other types"⟩ :=
  ⟨rfl, rfl⟩

/-! Keeper selection (`orderManager.js`,
`PrivateOrderManager.getActiveKeeperPublicKey`, lines 149-203). -/

/-- A keeper record as returned by `contract.keepers(address)`. -/
structure Keeper where
  publicKey : String
  reputationScore : Nat
  successfulBatches : Nat
  failedBatches : Nat
  isActive : Bool
  isSlashed : Bool
deriving Repr, DecidableEq

/-- The score of lines 175-181, in exact rational arithmetic:
`reputationScore * successRate`, with `successRate =
successfulBatches / (successfulBatches + failedBatches)` and a 0.5 default
when the keeper has no batch history. -/
def keeperScore (k : Keeper) : ℚ :=
  let totalBatches := k.successfulBatches + k.failedBatches
  let successRate : ℚ :=
    if totalBatches > 0 then (k.successfulBatches : ℚ) / (totalBatches : ℚ)
    else 1 / 2
  (k.reputationScore : ℚ) * successRate

/-- The `continue` filter of line 173: inactive or slashed keepers are
skipped before scoring. -/
def keeperEligible (k : Keeper) : Bool := k.isActive && !k.isSlashed

/-- One iteration of the selection loop (lines 169-195): skip ineligible
keepers; update the running best on strict improvement (`score >
bestScore`, line 183), starting from `bestScore = 0` and no keeper. -/
def selStep (acc : Option Keeper × ℚ) (k : Keeper) : Option Keeper × ℚ :=
  if !k.isActive || k.isSlashed then acc
  else if keeperScore k > acc.2 then (some k, keeperScore k) else acc

/-- The selection loop over the fetched candidate sample. -/
def selectBest (candidates : List Keeper) : Option Keeper :=
  (candidates.foldl selStep (none, 0)).1

/-- PrivateOrderManager.getActiveKeeperPublicKey over an already-fetched
candidate sample (the code takes the first `min(10, count)` entries of
`activeKeeperList`; per-keeper fetch failures, which are skipped by the
catch of line 191, are modelled as absent from the sample): return the
selected keeper's public key, or throw when no keeper was selected. -/
def getActiveKeeperPublicKey (candidates : List Keeper) :
    Except JsError String :=
  match selectBest candidates with
  | some k => .ok k.publicKey
  | none => .error ⟨"Error", "No suitable keeper found"⟩

/-- Invariant of the selection fold: either nothing is selected and every
eligible processed keeper scored ≤ 0, or the first eligible keeper
achieving the (positive) running maximum is selected. -/
def selInv (processed : List Keeper) (acc : Option Keeper × ℚ) : Prop :=
  (acc = (none, 0) ∧
    ∀ k' ∈ processed, keeperEligible k' = true → keeperScore k' ≤ 0) ∨
  (∃ k l1 l2, acc = (some k, keeperScore k) ∧ keeperEligible k = true ∧
    0 < keeperScore k ∧ processed = l1 ++ k :: l2 ∧
    (∀ k' ∈ l1, keeperEligible k' = true → keeperScore k' < keeperScore k) ∧
    (∀ k' ∈ l2, keeperEligible k' = true → keeperScore k' ≤ keeperScore k))

theorem selInv_step (processed : List Keeper) (acc : Option Keeper × ℚ)
    (k0 : Keeper) (h : selInv processed acc) :
    selInv (processed ++ [k0]) (selStep acc k0) := by
  unfold selStep
  by_cases hskip : (!k0.isActive || k0.isSlashed) = true
  · rw [if_pos hskip]
    have hinelig : keeperEligible k0 = false := by
      unfold keeperEligible
      cases hA : k0.isActive <;> cases hS : k0.isSlashed <;> simp_all
    rcases h with ⟨ha, hall⟩ | ⟨k, l1, l2, ha, helig, hpos, hsplit, hl1, hl2⟩
    · left
      refine ⟨ha, ?_⟩
      intro k' hk' he'
      rcases List.mem_append.mp hk' with hk' | hk'
      · exact hall k' hk' he'
      · rw [List.mem_singleton.mp hk'] at he'
        rw [he'] at hinelig
        cases hinelig
    · right
      refine ⟨k, l1, l2 ++ [k0], ha, helig, hpos, ?_, hl1, ?_⟩
      · rw [hsplit]
        simp
      · intro k' hk' he'
        rcases List.mem_append.mp hk' with hk' | hk'
        · exact hl2 k' hk' he'
        · rw [List.mem_singleton.mp hk'] at he'
          rw [he'] at hinelig
          cases hinelig
  · rw [if_neg hskip]
    have helig0 : keeperEligible k0 = true := by
      unfold keeperEligible
      cases hA : k0.isActive <;> cases hS : k0.isSlashed <;> simp_all
    by_cases himp : keeperScore k0 > acc.2
    · rw [if_pos himp]
      right
      rcases h with ⟨ha, hall⟩ | ⟨k, l1, l2, ha, helig, hpos, hsplit, hl1, hl2⟩
      · have hz : acc.2 = 0 := by rw [ha]
        refine ⟨k0, processed, [], rfl, helig0, by rw [hz] at himp; exact himp,
          by simp, ?_, by simp⟩
        intro k' hk' he'
        have := hall k' hk' he'
        rw [hz] at himp
        exact lt_of_le_of_lt this himp
      · have hs : acc.2 = keeperScore k := by rw [ha]
        rw [hs] at himp
        refine ⟨k0, processed, [], rfl, helig0, lt_trans hpos himp, by simp,
          ?_, by simp⟩
        intro k' hk' he'
        rw [hsplit] at hk'
        rcases List.mem_append.mp hk' with hk' | hk'
        · exact lt_trans (hl1 k' hk' he') himp
        · rcases List.mem_cons.mp hk' with rfl | hk'
          · exact himp
          · exact lt_of_le_of_lt (hl2 k' hk' he') himp
    · rw [if_neg himp]
      push_neg at himp
      rcases h with ⟨ha, hall⟩ | ⟨k, l1, l2, ha, helig, hpos, hsplit, hl1, hl2⟩
      · left
        refine ⟨ha, ?_⟩
        intro k' hk' he'
        rcases List.mem_append.mp hk' with hk' | hk'
        · exact hall k' hk' he'
        · rw [List.mem_singleton.mp hk']
          have hz : acc.2 = 0 := by rw [ha]
          rw [hz] at himp
          exact himp
      · right
        have hs : acc.2 = keeperScore k := by rw [ha]
        rw [hs] at himp
        refine ⟨k, l1, l2 ++ [k0], ha, helig, hpos, ?_, hl1, ?_⟩
        · rw [hsplit]
          simp
        · intro k' hk' he'
          rcases List.mem_append.mp hk' with hk' | hk'
          · exact hl2 k' hk' he'
          · rw [List.mem_singleton.mp hk']
            exact himp

theorem selInv_fold :
    ∀ (l processed : List Keeper) (acc : Option Keeper × ℚ),
      selInv processed acc → selInv (processed ++ l) (l.foldl selStep acc) := by
  intro l
  induction l with
  | nil => intro processed acc h; simpa using h
  | cons k0 t ih =>
    intro processed acc h
    have h1 := selInv_step processed acc k0 h
    have h2 := ih (processed ++ [k0]) (selStep acc k0) h1
    simpa using h2

/-- C8 (amended): keeper selection over the fetched candidate sample
excludes inactive and slashed keepers before scoring and scores the rest
as reputationScore × successRate (successRate =
successfulBatches/(successfulBatches+failedBatches), defaulting to 0.5
with no history).  It returns the first keeper attaining the maximum score
provided that maximum is strictly positive (the running best starts at 0
and only strict improvements are taken, so ties keep the earlier keeper);
when every eligible keeper scores 0 — e.g. reputation 0 — or no keeper is
eligible, it throws "No suitable keeper found" instead of returning a
maximal keeper. -/
theorem claim_C8_keeper_selection (candidates : List Keeper) :
    (∀ pk, getActiveKeeperPublicKey candidates = .ok pk →
      ∃ k l1 l2, candidates = l1 ++ k :: l2 ∧ pk = k.publicKey ∧
        keeperEligible k = true ∧ 0 < keeperScore k ∧
        (∀ k' ∈ l1, keeperEligible k' = true →
          keeperScore k' < keeperScore k) ∧
        (∀ k' ∈ l2, keeperEligible k' = true →
          keeperScore k' ≤ keeperScore k)) ∧
    (getActiveKeeperPublicKey candidates =
        .error ⟨"Error", "No suitable keeper found"⟩ ↔
      ∀ k ∈ candidates, keeperEligible k = true → keeperScore k ≤ 0) := by
  have hbase : selInv [] (none, 0) := Or.inl ⟨rfl, by simp⟩
  have hinv := selInv_fold candidates [] (none, 0) hbase
  rw [List.nil_append] at hinv
  constructor
  · intro pk hok
    rcases hinv with ⟨ha, _⟩ | ⟨k, l1, l2, ha, helig, hpos, hsplit, hl1, hl2⟩
    · exfalso
      unfold getActiveKeeperPublicKey selectBest at hok
      rw [ha] at hok
      cases hok
    · unfold getActiveKeeperPublicKey selectBest at hok
      rw [ha] at hok
      simp only [Except.ok.injEq] at hok
      exact ⟨k, l1, l2, hsplit, hok.symm, helig, hpos, hl1, hl2⟩
  · constructor
    · intro herr
      rcases hinv with ⟨_, hall⟩ | ⟨k, l1, l2, ha, helig, hpos, hsplit, _, _⟩
      · exact hall
      · exfalso
        unfold getActiveKeeperPublicKey selectBest at herr
        rw [ha] at herr
        cases herr
    · intro hall
      rcases hinv with ⟨ha, _⟩ | ⟨k, l1, l2, ha, helig, hpos, hsplit, _, _⟩
      · unfold getActiveKeeperPublicKey selectBest
        rw [ha]
      · exfalso
        have hk : k ∈ candidates := by
          rw [hsplit]
          exact List.mem_append.mpr (Or.inr (List.mem_cons_self k l2))
        have := hall k hk helig
        exact absurd hpos (not_lt.mpr this)

/-- Witness for C8: a single active, unslashed keeper with reputation 10
and no history scores 5 and is selected. -/
theorem claim_C8_keeper_selection_witness :
    ∃ k l1 l2,
      [(⟨"pk", 10, 0, 0, true, false⟩ : Keeper)] = l1 ++ k :: l2 ∧
      "pk" = k.publicKey ∧ keeperEligible k = true ∧ 0 < keeperScore k ∧
      (∀ k' ∈ l1, keeperEligible k' = true →
        keeperScore k' < keeperScore k) ∧
      (∀ k' ∈ l2, keeperEligible k' = true →
        keeperScore k' ≤ keeperScore k) :=
  (claim_C8_keeper_selection [⟨"pk", 10, 0, 0, true, false⟩]).1 "pk" (by
    have hs : keeperScore ⟨"pk", 10, 0, 0, true, false⟩ >
        ((none, 0) : Option Keeper × ℚ).2 := by
      unfold keeperScore
      norm_num
    unfold getActiveKeeperPublicKey selectBest
    rw [show List.foldl selStep (none, 0)
        [(⟨"pk", 10, 0, 0, true, false⟩ : Keeper)] =
      selStep (none, 0) ⟨"pk", 10, 0, 0, true, false⟩ from rfl]
    unfold selStep
    rw [if_neg (by decide), if_pos hs])

/-- C8 counterexample: a candidate sample containing exactly one keeper,
active and unslashed but with reputation score 0.  Its score, 0, is the
maximum over the sample, yet the code throws "No suitable keeper found"
instead of returning it — refuting "returns the keeper with the maximum
score" as stated. -/
theorem claim_C8_counterexample :
    keeperEligible ⟨"pk0", 0, 0, 0, true, false⟩ = true ∧
    getActiveKeeperPublicKey [⟨"pk0", 0, 0, 0, true, false⟩] =
      .error ⟨"Error", "No suitable keeper found"⟩ := by
  refine ⟨rfl, ?_⟩
  have hs : ¬ (keeperScore ⟨"pk0", 0, 0, 0, true, false⟩ >
      ((none, 0) : Option Keeper × ℚ).2) := by
    unfold keeperScore
    norm_num
  unfold getActiveKeeperPublicKey selectBest
  rw [show List.foldl selStep (none, 0)
      [(⟨"pk0", 0, 0, 0, true, false⟩ : Keeper)] =
    selStep (none, 0) ⟨"pk0", 0, 0, 0, true, false⟩ from rfl]
  unfold selStep
  rw [if_neg (by decide), if_neg hs]

end TradePrivate
